import Mathlib

/-!
# Gesture-control firmware: the gesture interpretation state machine

A shallow embedding of `src/main.cpp`: the action table, the gesture resolver
(`map_apds_gesture`), the mode controller and action dispatcher
(`handle_gesture`), the mode indicator (`set_mode_led`) and the event gate
(`loop`).  Global variables become the fields of `World`; every call on an
external collaborator (sensor, HID transport, pins, interrupt controller) is
appended to `World.trace`.  Reads outside an array and a null dereference are
undefined behaviour in the source and make the embedded function return `none`.
-/

namespace GestureControl

/-! ## Constants -/

/-- Number of modes (`constexpr uint8_t MODE_N = 6`). -/
def MODE_N : Nat := 6

/-- Number of action slots per mode (`constexpr uint8_t ACTION_PER_MODE_N = 6`). -/
def ACTION_PER_MODE_N : Nat := 6

/-- Pin of the general status indicator. -/
def STATUS_LED_PIN : Nat := 9

/-- Pins of the single-of-N mode indicator, `MODE_LED_PINS[MODE_N]`. -/
def MODE_LED_PINS : List Nat := [1, 2, 3, 4, 5, 6]

/-- Pin of the sensor's interrupt line. -/
def APDS_INT_PIN : Nat := 10

/-! ## Gesture codes of the sensor driver

The driver header (`SparkFun_APDS9960.h`) is not part of the repository; its
direction enumeration is `DIR_NONE, DIR_LEFT, DIR_RIGHT, DIR_UP, DIR_DOWN,
DIR_NEAR, DIR_FAR, DIR_ALL`, numbered from 0, and its error value is `0xFF`. -/

/-- Modelled from the spec: the driver's code for "no gesture" (absent header
`SparkFun_APDS9960.h`); the enumeration is numbered from 0 in the order
NONE, LEFT, RIGHT, UP, DOWN, NEAR, FAR. -/
def DIR_NONE : Int := 0
/-- Modelled from the spec: driver code of LEFT (absent header), first cardinal direction. -/
def DIR_LEFT : Int := 1
/-- Modelled from the spec: driver code of RIGHT (absent header). -/
def DIR_RIGHT : Int := 2
/-- Modelled from the spec: driver code of UP (absent header). -/
def DIR_UP : Int := 3
/-- Modelled from the spec: driver code of DOWN (absent header). -/
def DIR_DOWN : Int := 4
/-- Modelled from the spec: driver code of NEAR (absent header). -/
def DIR_NEAR : Int := 5
/-- Modelled from the spec: driver code of FAR (absent header). -/
def DIR_FAR : Int := 6
/-- Modelled from the spec: driver code `DIR_ALL` (absent header), never a decoded gesture. -/
def DIR_ALL : Int := 7
/-- Modelled from the spec: the driver's error return value `0xFF` (absent header). -/
def APDS_ERROR : Int := 255

/-- The four cardinal directions, in enumeration order. -/
def cardinal : List Int := [DIR_LEFT, DIR_RIGHT, DIR_UP, DIR_DOWN]

/-- The six gesture codes the firmware gives a meaning to. -/
def recognized : List Int := [DIR_LEFT, DIR_RIGHT, DIR_UP, DIR_DOWN, DIR_NEAR, DIR_FAR]

/-! ## Key codes of the HID library

`BleKeyboard.h` is not part of the repository.  Media keys are kept symbolic;
the literal key codes carry the values of the library header. -/

/-- Media-key identifiers referenced by the action table
(`const MediaKeyReport KEY_MEDIA_...` of the absent `BleKeyboard.h`). -/
inductive MediaKey where
  | KEY_MEDIA_PLAY_PAUSE
  | KEY_MEDIA_STOP
  | KEY_MEDIA_PREVIOUS_TRACK
  | KEY_MEDIA_NEXT_TRACK
  | KEY_MEDIA_MUTE
  deriving DecidableEq, Repr

/-- Modelled from the spec: literal key code of Page Up (absent header `BleKeyboard.h`). -/
def KEY_PAGE_UP : Nat := 0xD3
/-- Modelled from the spec: literal key code of the left arrow (absent header). -/
def KEY_LEFT_ARROW : Nat := 0xD8
/-- Modelled from the spec: literal key code of the right arrow (absent header). -/
def KEY_RIGHT_ARROW : Nat := 0xD7
/-- Modelled from the spec: literal key code of the up arrow (absent header). -/
def KEY_UP_ARROW : Nat := 0xDA
/-- Modelled from the spec: literal key code of the down arrow (absent header). -/
def KEY_DOWN_ARROW : Nat := 0xD9

/-! ## Data model -/

/-- One output event (`struct KeyAction`).  `media_key` is a pointer in the
source: `none` is `nullptr`. -/
structure KeyAction where
  enabled : Bool
  modifier : List Nat
  normal_key : Nat
  media_key : Option MediaKey
  is_media_key : Bool
  should_hold : Bool
  deriving DecidableEq, Repr

/-- A value-initialised `KeyAction`: what C++ aggregate initialisation puts in
every cell the initialiser list of `actions` leaves out. -/
def KeyAction.zero : KeyAction :=
  { enabled := false, modifier := [0, 0, 0], normal_key := 0, media_key := none,
    is_media_key := false, should_hold := false }

/-- A cell written `{ 1, {}, 0, &m, 1, 0 }` in the source. -/
def media_action (m : MediaKey) : KeyAction :=
  { enabled := true, modifier := [0, 0, 0], normal_key := 0, media_key := some m,
    is_media_key := true, should_hold := false }

/-- A cell written `{ 1, {}, k, nullptr, 0, hold }` in the source. -/
def key_action (k : Nat) (hold : Bool) : KeyAction :=
  { enabled := true, modifier := [0, 0, 0], normal_key := k, media_key := none,
    is_media_key := false, should_hold := hold }

/-- Completes an initialiser list to `n` elements with value-initialised ones. -/
def pad_to {α : Type} (n : Nat) (z : α) (given : List α) : List α :=
  given ++ List.replicate (n - given.length) z

/-- The action table `KeyAction actions[MODE_N][ACTION_PER_MODE_N]`: four rows
of four cells are written out, everything else is value-initialised. -/
def actions : List (List KeyAction) :=
  pad_to MODE_N (List.replicate ACTION_PER_MODE_N KeyAction.zero) <|
    List.map (pad_to ACTION_PER_MODE_N KeyAction.zero)
      [ -- Mode 0
        [ media_action MediaKey.KEY_MEDIA_PLAY_PAUSE,
          media_action MediaKey.KEY_MEDIA_STOP,
          media_action MediaKey.KEY_MEDIA_PREVIOUS_TRACK,
          media_action MediaKey.KEY_MEDIA_NEXT_TRACK ],
        -- Mode 1
        [ media_action MediaKey.KEY_MEDIA_PLAY_PAUSE,
          media_action MediaKey.KEY_MEDIA_MUTE,
          key_action KEY_PAGE_UP false,
          key_action KEY_PAGE_UP false ],
        -- Mode 2
        [ key_action KEY_LEFT_ARROW false,
          key_action KEY_RIGHT_ARROW false,
          key_action KEY_UP_ARROW false,
          key_action KEY_DOWN_ARROW false ],
        -- Mode 3 (its source comment says "Mode 2")
        [ key_action 65 true,   -- 'A'
          key_action 68 true,   -- 'D'
          key_action 87 true,   -- 'W'
          key_action 83 true ]  -- 'S'
      ]

/-- The read `actions[mode][val]`; `none` when an index is outside the array. -/
def actions_at (mode val : Nat) : Option KeyAction :=
  match actions[mode]? with
  | none => none
  | some row => row[val]?

/-- Calls on the external collaborators, in the order they are made. -/
inductive Effect where
  | detachInterrupt (pin : Nat)
  | attachInterrupt (pin : Nat)
  | isGestureAvailable
  | readGesture
  | releaseAll
  | press (k : Nat)
  | pressMedia (m : MediaKey)
  | digitalWrite (pin : Nat) (val : Nat)
  | delay (ms : Nat)
  deriving DecidableEq, Repr

/-- The global variables of the firmware, the gesture buffered in the sensor,
and the calls made so far.

`apds` models the sensor driver (not part of the repository) as the spec's
interface describes it: `isGestureAvailable()` is `apds.isSome`, and
`readGesture()` returns the buffered code and clears the buffer. -/
structure World where
  current_mode : Nat
  selected_mode : Nat
  is_adsp_isr : Bool
  is_mode_selection : Bool
  apds : Option Int
  trace : List Effect
  deriving DecidableEq, Repr

/-- Records one call on a collaborator. -/
def emit (e : Effect) (w : World) : World :=
  { w with trace := w.trace ++ [e] }

/-- The initial values of the globals, before any call has been recorded. -/
def World.init : World :=
  { current_mode := 0, selected_mode := 0, is_adsp_isr := false,
    is_mode_selection := false, apds := none, trace := [] }

/-! ## Operations -/

/-- Embeds `blink_apds_led`: three writes to the status pin, 250 ms apart; the
written level `curr` starts at 0 and is toggled each round, so it is `i % 2`. -/
def blink_apds_led (w : World) : World :=
  (List.range 3).foldl
    (fun w i => emit (Effect.delay 250) (emit (Effect.digitalWrite STATUS_LED_PIN (i % 2)) w)) w

/-- Embeds `set_mode_led`: all mode pins low, then the pin of the shown mode high.
The read `MODE_LED_PINS[mode]` is outside the array when `mode ≥ MODE_N`. -/
def set_mode_led (w : World) : Option World :=
  let mode := if w.is_mode_selection then w.selected_mode else w.current_mode
  let w := MODE_LED_PINS.foldl (fun w i => emit (Effect.digitalWrite i 0) w) w
  match MODE_LED_PINS[mode]? with
  | none => none
  | some pin => some (emit (Effect.digitalWrite pin 1) w)

/-- Embeds `map_apds_gesture`: `(gesture) ? gesture - 1 : 0`, narrowed to `uint8_t`. -/
def map_apds_gesture (gesture : Int) : Nat :=
  ((if gesture ≠ 0 then gesture - 1 else 0) % 256).toNat

/-- The `switch (gesture)` of the mode-selection branch of `handle_gesture`
(source lines 146-166), as a chain of tests against its (distinct) case labels.
The values assigned to the `uint8_t` variables are below 256 whenever the
variables are, so the narrowing on assignment is the identity and is left out. -/
def mode_switch (gesture : Int) (w : World) : World :=
  if gesture = DIR_FAR then
    -- Cancel mode selection
    { w with is_mode_selection := false }
  else if gesture = DIR_NEAR then
    -- Confirm mode selection
    { w with is_mode_selection := true, current_mode := w.selected_mode }
  else if gesture = DIR_LEFT then
    -- Previous mode
    { w with selected_mode :=
        if w.selected_mode = 0 then MODE_N - 1 else w.selected_mode - 1 }
  else if gesture = DIR_RIGHT then
    -- Next mode
    { w with selected_mode := (w.selected_mode + 1) % MODE_N }
  else w

/-- The mode-selection branch of `handle_gesture` (source lines 145-169): the
`switch`, then `set_mode_led()`. -/
def mode_selection (gesture : Int) (w : World) : Option World :=
  set_mode_led (mode_switch gesture w)

/-- The "normal action" part of `handle_gesture` (source lines 178-186).  The
read `actions[current_mode][val]` outside the array and the dereference of a
null `media_key` give `none`. -/
def normal_action (gesture : Int) (w : World) : Option World :=
  let w := emit Effect.releaseAll w
  let val := map_apds_gesture gesture
  match actions_at w.current_mode val with
  | none => none
  | some action =>
    if !action.enabled then some w
    else
      let w := action.modifier.foldl (fun w i => emit (Effect.press i) w) w
      let pressed : Option World :=
        if action.is_media_key then
          match action.media_key with
          | none => none
          | some m => some (emit (Effect.pressMedia m) w)
        else some (emit (Effect.press action.normal_key) w)
      match pressed with
      | none => none
      | some w => some (if !action.should_hold then emit Effect.releaseAll w else w)

/-- Embeds `handle_gesture`: the sensor is asked for a gesture; with one
available it is read, and handled by the mode-selection branch, by entering
mode selection (FAR), or by the normal action. -/
def handle_gesture (w : World) : Option World :=
  let w := emit Effect.isGestureAvailable w
  match w.apds with
  | none => some w
  | some gesture =>
    let w := { emit Effect.readGesture w with apds := none }
    -- Mode selection
    if w.is_mode_selection then mode_selection gesture w
    -- Enter mode selection mode
    else if gesture = DIR_FAR then
      some { w with is_mode_selection := true, selected_mode := w.current_mode }
    -- Normal action
    else normal_action gesture w

/-- The interrupt handler `[]() { is_adsp_isr = true; }`. -/
def isr (w : World) : World :=
  { w with is_adsp_isr := true }

/-- The statements of the processing pass of `loop()` (source lines 193-197). -/
inductive PassStmt where
  /-- Source line 193: `detachInterrupt(APDS_INT_PIN);` -/
  | detach
  /-- Source line 194: `handle_gesture();` -/
  | handle
  /-- Source line 195: `blink_apds_led();` -/
  | blink
  /-- Source line 196: `is_adsp_isr = false;` -/
  | clear
  /-- Source line 197: `attachInterrupt(APDS_INT_PIN, ..., FALLING);` -/
  | attach
  deriving DecidableEq, Repr

/-- What one statement of the processing pass does to the world. -/
def exec_stmt : PassStmt → World → Option World
  | PassStmt.detach, w => some (emit (Effect.detachInterrupt APDS_INT_PIN) w)
  | PassStmt.handle, w => handle_gesture w
  | PassStmt.blink, w => some (blink_apds_led w)
  | PassStmt.clear, w => some { w with is_adsp_isr := false }
  | PassStmt.attach, w => some (emit (Effect.attachInterrupt APDS_INT_PIN) w)

/-- The body of the processing pass, in source order (lines 193-197). -/
def pass_body : List PassStmt :=
  [PassStmt.detach, PassStmt.handle, PassStmt.blink, PassStmt.clear, PassStmt.attach]

/-- Runs statements one after the other; the result lists the world after each
statement, in order, so that the order of state writes and calls can be read
off; `none` when a statement has undefined behaviour. -/
def exec_stmts : List PassStmt → World → Option (List World)
  | [], _ => some []
  | st :: sts, w =>
    match exec_stmt st w with
    | none => none
    | some w1 =>
      match exec_stmts sts w1 with
      | none => none
      | some hist => some (w1 :: hist)

/-- One pass of `loop()`; `connected` is what `ble_keyboard.isConnected()`
returns.  With the transport connected and `is_adsp_isr` set, the statements
of `pass_body` run in order and the pass ends in the world after the last. -/
def loop (connected : Bool) (w : World) : Option World :=
  if connected then
    if w.is_adsp_isr then
      match exec_stmts pass_body w with
      | none => none
      | some hist => some (hist.getLastD w)
    else some w
  else some w

/-! ## Derived notions used to state properties -/

/-- The sensor reports gesture `g`: it is buffered for the next read. -/
def sense (g : Int) (w : World) : World :=
  { w with apds := some g }

/-- Handling gesture `g`: `handle_gesture` run with `g` available in the sensor. -/
def handle (g : Int) (w : World) : Option World :=
  handle_gesture (sense g w)

/-- Handling a sequence of gestures, one `handle_gesture` call each. -/
def handle_all : List Int → World → Option World
  | [], w => some w
  | g :: gs, w =>
    match handle g w with
    | none => none
    | some w => handle_all gs w

/-- Consecutive `loop()` passes, one per connectivity reading. -/
def run_loop : List Bool → World → Option World
  | [], w => some w
  | c :: cs, w =>
    match loop c w with
    | none => none
    | some w => run_loop cs w

/-- The calls made between world `w` and a later world `w'`. -/
def effects_since (w w' : World) : List Effect :=
  w'.trace.drop w.trace.length

/-- Whether a call is a key press on the HID transport. -/
def Effect.isPress : Effect → Bool
  | Effect.press _ => true
  | Effect.pressMedia _ => true
  | _ => false

/-- Whether a call is made on the HID transport. -/
def Effect.isHid : Effect → Bool
  | Effect.releaseAll => true
  | Effect.press _ => true
  | Effect.pressMedia _ => true
  | _ => false

/-- Whether a call is made on the sensor driver. -/
def Effect.isSensor : Effect → Bool
  | Effect.isGestureAvailable => true
  | Effect.readGesture => true
  | _ => false

/-- The HID calls among a list of calls, in order. -/
def hid_calls (es : List Effect) : List Effect :=
  es.filter Effect.isHid

/-- The mode state: `currentMode`, `selectedMode`, `isModeSelection`. -/
def mode_state (w : World) : Nat × Nat × Bool :=
  (w.current_mode, w.selected_mode, w.is_mode_selection)

/-- The press of the main key of a cell: the media key if `is_media_key`, else
the literal key; `none` when `is_media_key` is set and `media_key` is null. -/
def main_press (a : KeyAction) : Option Effect :=
  if a.is_media_key then
    match a.media_key with
    | none => none
    | some m => some (Effect.pressMedia m)
  else some (Effect.press a.normal_key)

/-- The HID calls of one dispatch of an enabled cell whose main press is `k`. -/
def dispatch_calls (a : KeyAction) (k : Effect) : List Effect :=
  [Effect.releaseAll] ++ a.modifier.map Effect.press ++ [k] ++
    (if a.should_hold then [] else [Effect.releaseAll])

/-- The mode shown by the indicator: `selected_mode` while selecting, else `current_mode`. -/
def shown_mode (w : World) : Nat :=
  if w.is_mode_selection then w.selected_mode else w.current_mode

/-- The pin writes of one `set_mode_led` call that lights `pin`. -/
def led_writes (pin : Nat) : List Effect :=
  MODE_LED_PINS.map (fun i => Effect.digitalWrite i 0) ++ [Effect.digitalWrite pin 1]

/-- What `loop()` does after `handle_gesture()` in a processing pass: the
status blink, clearing `is_adsp_isr`, re-attaching the interrupt. -/
def finish_pass (w : World) : World :=
  emit (Effect.attachInterrupt APDS_INT_PIN) { blink_apds_led w with is_adsp_isr := false }

/-- The level a pin has after one more call: a `digitalWrite` to the pin sets
it, every other call leaves it. -/
def write_step (pin : Nat) (level : Option Nat) (e : Effect) : Option Nat :=
  match e with
  | Effect.digitalWrite p v => if p = pin then some v else level
  | _ => level

/-- The level last written to a pin by a list of calls; `none` when the pin
has not been driven. -/
def last_write (es : List Effect) (pin : Nat) : Option Nat :=
  es.foldl (write_step pin) none

/-- Whether the indicator output of mode `i` is active: the last write to
`MODE_LED_PINS[i]` was 1. -/
def led_active (w : World) (i : Nat) : Bool :=
  match MODE_LED_PINS[i]? with
  | none => false
  | some pin => last_write w.trace pin == some 1

/-- The mode indicator shows mode `m`: among the `MODE_N` outputs exactly the
one of `m` is active. -/
def indicator_shows (w : World) (m : Nat) : Prop :=
  ∀ i, i < MODE_N → (led_active w i = true ↔ i = m)

/-- Whether a call attaches or detaches the interrupt source. -/
def Effect.isGate : Effect → Bool
  | Effect.detachInterrupt _ => true
  | Effect.attachInterrupt _ => true
  | _ => false

/-- The calls of `blink_apds_led`, the status feedback of a processing pass. -/
def blink_calls : List Effect :=
  [Effect.digitalWrite STATUS_LED_PIN 0, Effect.delay 250,
   Effect.digitalWrite STATUS_LED_PIN 1, Effect.delay 250,
   Effect.digitalWrite STATUS_LED_PIN 0, Effect.delay 250]

/-! ## Basic lemmas -/

theorem foldl_emit {α : Type} (f : α → Effect) (l : List α) (w : World) :
    l.foldl (fun w i => emit (f i) w) w = { w with trace := w.trace ++ l.map f } := by
  induction l generalizing w with
  | nil => simp
  | cons x xs ih =>
    simp only [List.foldl, List.map, ih]
    simp [emit]

theorem effects_since_append (w w' : World) (l : List Effect)
    (h : w'.trace = w.trace ++ l) : effects_since w w' = l := by
  simp [effects_since, h]

theorem hid_calls_map_press (l : List Nat) :
    hid_calls (l.map Effect.press) = l.map Effect.press := by
  induction l with
  | nil => rfl
  | cons x xs ih =>
    simp only [hid_calls] at ih
    simp [hid_calls, Effect.isHid, ih]

theorem main_press_isPress (a : KeyAction) (k : Effect) (h : main_press a = some k) :
    k.isPress = true := by
  unfold main_press at h
  split at h
  · split at h
    · simp at h
    · simp at h; subst h; rfl
  · simp at h; subst h; rfl

theorem isPress_isHid (k : Effect) (h : k.isPress = true) : k.isHid = true := by
  cases k <;> simp_all [Effect.isPress, Effect.isHid]

theorem hid_calls_dispatch (a : KeyAction) (k : Effect) (hk : k.isPress = true) :
    hid_calls (dispatch_calls a k) = dispatch_calls a k := by
  have hk' := isPress_isHid k hk
  have hm := hid_calls_map_press a.modifier
  simp only [hid_calls] at hm
  cases hh : a.should_hold <;>
    simp [hid_calls, dispatch_calls, hh, List.filter_append, hm, hk'] <;>
    refine ⟨rfl, ?_⟩
  · rintro e (⟨x, -, rfl⟩ | rfl | rfl) <;> first | rfl | exact hk'
  · rintro e (⟨x, -, rfl⟩ | rfl) <;> first | rfl | exact hk'

/-- A cardinal gesture is one of the four codes 1, 2, 3, 4. -/
theorem mem_cardinal (g : Int) : g ∈ cardinal ↔ g = 1 ∨ g = 2 ∨ g = 3 ∨ g = 4 := by
  simp [cardinal, DIR_LEFT, DIR_RIGHT, DIR_UP, DIR_DOWN]

/-- The normal action on a cell that exists, is enabled, and has a main key
that can be pressed: exactly the calls `dispatch_calls`, nothing else changes. -/
theorem normal_action_enabled (w : World) (g : Int) (a : KeyAction) (k : Effect)
    (ha : actions_at w.current_mode (map_apds_gesture g) = some a)
    (he : a.enabled = true) (hk : main_press a = some k) :
    normal_action g w = some { w with trace := w.trace ++ dispatch_calls a k } := by
  obtain ⟨cm, sm, ir, ims, ap, tr⟩ := w
  simp only at ha
  unfold main_press at hk
  simp only [normal_action, foldl_emit]
  cases hh : a.should_hold <;> cases hmk : a.is_media_key <;> cases hp : a.media_key <;>
    simp [hmk, hp] at hk <;>
    simp [emit, ha, he, hh, hmk, hp, hk, dispatch_calls]

/-- The normal action on a cell that exists and is disabled: one release-all. -/
theorem normal_action_disabled (w : World) (g : Int) (a : KeyAction)
    (ha : actions_at w.current_mode (map_apds_gesture g) = some a)
    (he : a.enabled = false) :
    normal_action g w = some { w with trace := w.trace ++ [Effect.releaseAll] } := by
  obtain ⟨cm, sm, ir, ims, ap, tr⟩ := w
  simp only at ha
  simp [normal_action, emit, ha, he]

/-- In NORMAL a gesture other than FAR is read and given to the normal action. -/
theorem handle_normal (w : World) (g : Int)
    (hn : w.is_mode_selection = false) (hg : g ≠ DIR_FAR) :
    handle g w = normal_action g { w with
      apds := none
      trace := w.trace ++ [Effect.isGestureAvailable, Effect.readGesture] } := by
  obtain ⟨cm, sm, ir, ims, ap, tr⟩ := w
  simp only at hn
  subst hn
  simp [handle, sense, handle_gesture, emit, hg]

/-- What `handle_gesture` does in NORMAL with a gesture other than FAR whose
cell exists, is enabled, and has a main key that can be pressed. -/
theorem handle_normal_dispatch (w : World) (g : Int) (a : KeyAction) (k : Effect)
    (hn : w.is_mode_selection = false) (hg : g ≠ DIR_FAR)
    (ha : actions_at w.current_mode (map_apds_gesture g) = some a)
    (he : a.enabled = true) (hk : main_press a = some k) :
    handle g w = some { w with
      apds := none
      trace := w.trace ++ ([Effect.isGestureAvailable, Effect.readGesture] ++ dispatch_calls a k) } := by
  rw [handle_normal w g hn hg]
  rw [normal_action_enabled { w with apds := none, trace := w.trace ++ _ } g a k ha he hk]
  simp

/-- What `handle_gesture` does in NORMAL with a gesture other than FAR whose
cell exists and is disabled. -/
theorem handle_normal_disabled (w : World) (g : Int) (a : KeyAction)
    (hn : w.is_mode_selection = false) (hg : g ≠ DIR_FAR)
    (ha : actions_at w.current_mode (map_apds_gesture g) = some a)
    (he : a.enabled = false) :
    handle g w = some { w with
      apds := none
      trace := w.trace ++ [Effect.isGestureAvailable, Effect.readGesture, Effect.releaseAll] } := by
  rw [handle_normal w g hn hg]
  rw [normal_action_disabled { w with apds := none, trace := w.trace ++ _ } g a ha he]
  simp

/-- The action table written out: six rows of six cells. -/
theorem actions_rows : actions =
    [ [media_action MediaKey.KEY_MEDIA_PLAY_PAUSE, media_action MediaKey.KEY_MEDIA_STOP,
       media_action MediaKey.KEY_MEDIA_PREVIOUS_TRACK, media_action MediaKey.KEY_MEDIA_NEXT_TRACK,
       KeyAction.zero, KeyAction.zero],
      [media_action MediaKey.KEY_MEDIA_PLAY_PAUSE, media_action MediaKey.KEY_MEDIA_MUTE,
       key_action KEY_PAGE_UP false, key_action KEY_PAGE_UP false,
       KeyAction.zero, KeyAction.zero],
      [key_action KEY_LEFT_ARROW false, key_action KEY_RIGHT_ARROW false,
       key_action KEY_UP_ARROW false, key_action KEY_DOWN_ARROW false,
       KeyAction.zero, KeyAction.zero],
      [key_action 65 true, key_action 68 true, key_action 87 true, key_action 83 true,
       KeyAction.zero, KeyAction.zero],
      List.replicate 6 KeyAction.zero,
      List.replicate 6 KeyAction.zero ] := by
  rfl

/-- The table read succeeds exactly inside the `MODE_N × ACTION_PER_MODE_N` array. -/
theorem actions_at_isSome (m v : Nat) :
    (actions_at m v).isSome = true ↔ m < MODE_N ∧ v < ACTION_PER_MODE_N := by
  simp only [ MODE_N, ACTION_PER_MODE_N]
  by_cases hm : m < 6
  · by_cases hv : v < 6
    · interval_cases m <;> interval_cases v <;> simp [actions_at, actions_rows]
    · have hv' : 6 ≤ v := by omega
      interval_cases m <;> simp [actions_at, actions_rows, hv, hv']
  · have hm' : 6 ≤ m := by omega
    have : actions[m]? = none := by
      apply List.getElem?_eq_none; simpa [actions_rows] using hm'
    simp [actions_at, this, hm]

theorem actions_at_bounds (m v : Nat) (a : KeyAction) (ha : actions_at m v = some a) :
    m < 6 ∧ v < 6 := by
  have := (actions_at_isSome m v).mp (by simp [ha])
  simpa [ MODE_N, ACTION_PER_MODE_N] using this

/-- Every enabled cell of the action table has a main key that can be pressed:
a media cell never carries a null `media_key`. -/
theorem actions_enabled_main_press (m v : Nat) (a : KeyAction)
    (ha : actions_at m v = some a) (he : a.enabled = true) :
    ∃ k, main_press a = some k := by
  obtain ⟨hm, hv⟩ := actions_at_bounds m v a ha
  interval_cases m <;> interval_cases v <;>
    simp [actions_at, actions_rows] at ha <;>
    subst ha <;> first | (simp [KeyAction.zero] at he) | exact ⟨_, rfl⟩

/-- The HID calls among the calls of one handled gesture that is dispatched. -/
theorem hid_calls_handled_dispatch (a : KeyAction) (k : Effect) (hk : k.isPress = true) :
    hid_calls ([Effect.isGestureAvailable, Effect.readGesture] ++ dispatch_calls a k) =
      dispatch_calls a k := by
  have h := hid_calls_dispatch a k hk
  simp only [hid_calls] at h
  simp [hid_calls, List.filter_append, h, Effect.isHid]

/-- In a list of calls that starts with release-all, every press has a
release-all before it. -/
theorem release_before_press_of_head (rest : List Effect) (pre post : List Effect) (e : Effect)
    (h : Effect.releaseAll :: rest = pre ++ e :: post) (he : e.isPress = true) :
    Effect.releaseAll ∈ pre := by
  cases pre with
  | nil =>
    simp at h
    rw [← h.1] at he
    simp [Effect.isPress] at he
  | cons x xs =>
    simp at h
    simp [h.1]

/-- The last call of a dispatch is release-all exactly when the cell does not hold. -/
theorem dispatch_calls_getLast (a : KeyAction) (k : Effect) (hk : k.isPress = true) :
    (dispatch_calls a k).getLast? = some Effect.releaseAll ↔ a.should_hold = false := by
  cases hh : a.should_hold
  · have : dispatch_calls a k =
        (Effect.releaseAll :: (a.modifier.map Effect.press ++ [k])) ++ [Effect.releaseAll] := by
      simp [dispatch_calls, hh]
    rw [this, List.getLast?_concat]
    simp
  · have hne : k ≠ Effect.releaseAll := by
      intro h; rw [h] at hk; simp [Effect.isPress] at hk
    have : dispatch_calls a k = (Effect.releaseAll :: a.modifier.map Effect.press) ++ [k] := by
      simp [dispatch_calls, hh]
    rw [this, List.getLast?_concat]
    simp [hne]

/-! ## Action dispatch (claims C1, C2, C10) -/

/-- C1: for every mode in `[0, MODE_N)` and every cardinal direction whose
action-table cell is enabled, handling that gesture in NORMAL succeeds; its
HID calls start with a release-all call and hold at least one press call;
every press call among them has a release-all call before it; and the
sequence of HID calls ends with a release-all if and only if the cell's
`should_hold` is false. -/
theorem enabled_dispatch_release_first_and_last (w : World) (g : Int) (a : KeyAction)
    (hn : w.is_mode_selection = false) (_hm : w.current_mode < MODE_N) (hg : g ∈ cardinal)
    (ha : actions_at w.current_mode (map_apds_gesture g) = some a) (he : a.enabled = true) :
    ∃ w', handle g w = some w' ∧
      (∃ rest, hid_calls (effects_since w w') = Effect.releaseAll :: rest) ∧
      (∃ e, e ∈ hid_calls (effects_since w w') ∧ e.isPress = true) ∧
      (∀ pre e post, hid_calls (effects_since w w') = pre ++ e :: post → e.isPress = true →
        Effect.releaseAll ∈ pre) ∧
      ((hid_calls (effects_since w w')).getLast? = some Effect.releaseAll ↔
        a.should_hold = false) := by
  have hfar : g ≠ DIR_FAR := by
    rcases (mem_cardinal g).mp hg with h | h | h | h <;> simp [h, DIR_FAR]
  obtain ⟨k, hk⟩ := actions_enabled_main_press _ _ a ha he
  have hkp := main_press_isPress a k hk
  refine ⟨_, handle_normal_dispatch w g a k hn hfar ha he hk, ?_, ?_, ?_, ?_⟩
  · rw [effects_since_append w _ _ rfl, hid_calls_handled_dispatch a k hkp]
    exact ⟨a.modifier.map Effect.press ++ [k] ++
      (if a.should_hold then [] else [Effect.releaseAll]), by simp [dispatch_calls]⟩
  · rw [effects_since_append w _ _ rfl, hid_calls_handled_dispatch a k hkp]
    exact ⟨k, by simp [dispatch_calls], hkp⟩
  · intro pre e post hsplit hpress
    rw [effects_since_append w _ _ rfl, hid_calls_handled_dispatch a k hkp] at hsplit
    exact release_before_press_of_head _ pre post e (by simpa [dispatch_calls] using hsplit) hpress
  · rw [effects_since_append w _ _ rfl, hid_calls_handled_dispatch a k hkp]
    exact dispatch_calls_getLast a k hkp

/-- C1 at mode 3, direction UP (the held key 'W'). -/
theorem enabled_dispatch_release_first_and_last_witness :
    ∃ w', handle DIR_UP { World.init with current_mode := 3 } = some w' ∧
      (∃ rest, hid_calls (effects_since { World.init with current_mode := 3 } w') =
        Effect.releaseAll :: rest) ∧
      (∃ e, e ∈ hid_calls (effects_since { World.init with current_mode := 3 } w') ∧
        e.isPress = true) ∧
      (∀ pre e post,
        hid_calls (effects_since { World.init with current_mode := 3 } w') = pre ++ e :: post →
        e.isPress = true → Effect.releaseAll ∈ pre) ∧
      ((hid_calls (effects_since { World.init with current_mode := 3 } w')).getLast? =
          some Effect.releaseAll ↔ (key_action 87 true).should_hold = false) :=
  enabled_dispatch_release_first_and_last { World.init with current_mode := 3 } DIR_UP
    (key_action 87 true) rfl (by decide) (by decide) (by decide) rfl

/-- Every cell of the unconfigured modes 4 and 5 is disabled. -/
theorem actions_unconfigured_disabled (m v : Nat) (a : KeyAction)
    (hm : m = 4 ∨ m = 5) (ha : actions_at m v = some a) : a.enabled = false := by
  obtain ⟨-, hv⟩ := actions_at_bounds m v a ha
  rcases hm with rfl | rfl <;> interval_cases v <;>
    simp [actions_at, actions_rows] at ha <;> subst ha <;> rfl

/-- C2: for every mode in `[0, MODE_N)` and every cardinal direction whose
action-table cell is disabled, handling that gesture in NORMAL succeeds, its
HID calls are exactly one release-all (so zero press calls), and
`currentMode`, `selectedMode` and `isModeSelection` are unchanged. -/
theorem disabled_dispatch_release_only (w : World) (g : Int) (a : KeyAction)
    (hn : w.is_mode_selection = false) (_hm : w.current_mode < MODE_N) (hg : g ∈ cardinal)
    (ha : actions_at w.current_mode (map_apds_gesture g) = some a) (he : a.enabled = false) :
    ∃ w', handle g w = some w' ∧
      hid_calls (effects_since w w') = [Effect.releaseAll] ∧
      (hid_calls (effects_since w w')).filter Effect.isPress = [] ∧
      mode_state w' = mode_state w := by
  have hfar : g ≠ DIR_FAR := by
    rcases (mem_cardinal g).mp hg with h | h | h | h <;> simp [h, DIR_FAR]
  refine ⟨_, handle_normal_disabled w g a hn hfar ha he, ?_, ?_, rfl⟩
  · rw [effects_since_append w _ _ rfl]
    simp [hid_calls, Effect.isHid]
  · rw [effects_since_append w _ _ rfl]
    simp [hid_calls, Effect.isHid, Effect.isPress]

/-- C2 at the unconfigured mode 4, direction LEFT. -/
theorem disabled_dispatch_release_only_witness :
    ∃ w', handle DIR_LEFT { World.init with current_mode := 4 } = some w' ∧
      hid_calls (effects_since { World.init with current_mode := 4 } w') = [Effect.releaseAll] ∧
      (hid_calls (effects_since { World.init with current_mode := 4 } w')).filter Effect.isPress
        = [] ∧
      mode_state w' = mode_state { World.init with current_mode := 4 } :=
  disabled_dispatch_release_only { World.init with current_mode := 4 } DIR_LEFT
    KeyAction.zero rfl (by decide) (by decide) (by decide) rfl

/-! ## Mode controller (claims C3 to C7) -/

theorem mode_led_pin (mode : Nat) (h : mode < MODE_N) : MODE_LED_PINS[mode]? = some (mode + 1) := by
  simp only [ MODE_N] at h
  interval_cases mode <;> rfl

/-- With the shown mode in range, `set_mode_led` only writes pins. -/
theorem set_mode_led_in_range (w : World) (h : shown_mode w < MODE_N) :
    set_mode_led w = some { w with trace := w.trace ++ led_writes (shown_mode w + 1) } := by
  obtain ⟨cm, sm, ir, ims, ap, tr⟩ := w
  simp only [shown_mode] at h ⊢
  simp only [set_mode_led, foldl_emit, mode_led_pin _ h]
  simp [emit, led_writes]

theorem hid_calls_led_writes (pin : Nat) : hid_calls (led_writes pin) = [] := by
  simp [hid_calls, led_writes, MODE_LED_PINS, Effect.isHid]

/-- While selecting, a gesture is read and given to the mode-selection branch. -/
theorem handle_selecting (w : World) (g : Int) (hs : w.is_mode_selection = true) :
    handle g w = mode_selection g { w with
      apds := none
      trace := w.trace ++ [Effect.isGestureAvailable, Effect.readGesture] } := by
  obtain ⟨cm, sm, ir, ims, ap, tr⟩ := w
  simp only at hs
  subst hs
  simp [handle, sense, handle_gesture, emit]

/-- The `switch` keeps the shown mode in range. -/
theorem shown_mode_switch_lt (w : World) (g : Int)
    (hc : w.current_mode < MODE_N) (hsel : w.selected_mode < MODE_N)
    (hs : w.is_mode_selection = true) :
    shown_mode (mode_switch g w) < MODE_N := by
  obtain ⟨cm, sm, ir, ims, ap, tr⟩ := w
  simp only [ MODE_N] at hc hsel ⊢
  simp only at hs
  subst hs
  simp only [mode_switch, shown_mode, MODE_N]
  split_ifs <;> simp_all <;> omega

/-- One gesture handled while selecting, with the mode to show in range: the
call succeeds, the mode state is the one the `switch` computes, and the only
calls made are sensor reads and pin writes. -/
theorem handle_selecting_some (w : World) (g : Int) (hs : w.is_mode_selection = true)
    (hshown : shown_mode (mode_switch g w) < MODE_N) :
    ∃ w', handle g w = some w' ∧ mode_state w' = mode_state (mode_switch g w) ∧
      w'.is_adsp_isr = w.is_adsp_isr ∧
      effects_since w w' = [Effect.isGestureAvailable, Effect.readGesture] ++
        led_writes (shown_mode (mode_switch g w) + 1) := by
  have hshown' : shown_mode (mode_switch g { w with
      apds := none
      trace := w.trace ++ [Effect.isGestureAvailable, Effect.readGesture] }) =
      shown_mode (mode_switch g w) := by
    simp only [mode_switch, shown_mode]; split_ifs <;> simp_all
  rw [handle_selecting w g hs, mode_selection, set_mode_led_in_range _ (by rw [hshown']; exact hshown)]
  refine ⟨_, rfl, ?_, ?_, ?_⟩
  · simp only [mode_switch, mode_state]; split_ifs <;> rfl
  · simp only [mode_switch]; split_ifs <;> rfl
  · rw [hshown']
    apply effects_since_append
    simp only [mode_switch]; split_ifs <;> simp

/-- Entering mode selection: FAR in NORMAL. -/
theorem handle_normal_far (w : World) (hn : w.is_mode_selection = false) :
    handle DIR_FAR w = some { w with
      apds := none
      is_mode_selection := true
      selected_mode := w.current_mode
      trace := w.trace ++ [Effect.isGestureAvailable, Effect.readGesture] } := by
  obtain ⟨cm, sm, ir, ims, ap, tr⟩ := w
  simp only at hn
  subst hn
  simp [handle, sense, handle_gesture, emit]

theorem handle_all_append (xs ys : List Int) (w : World) :
    handle_all (xs ++ ys) w = (handle_all xs w).bind (handle_all ys) := by
  induction xs generalizing w with
  | nil => simp [handle_all]
  | cons x xs ih =>
    simp only [List.cons_append, handle_all]
    cases handle x w with
    | none => simp
    | some w1 => simp [ih]

/-- C7: for every NORMAL state, a FAR gesture moves the machine to SELECTING
with `selectedMode` set to `currentMode`, leaves `currentMode` unchanged, and
makes no call on the HID transport (no press, no release-all). -/
theorem far_enters_selection (w : World) (hn : w.is_mode_selection = false) :
    ∃ w', handle DIR_FAR w = some w' ∧
      w'.is_mode_selection = true ∧ w'.selected_mode = w.current_mode ∧
      w'.current_mode = w.current_mode ∧ hid_calls (effects_since w w') = [] := by
  refine ⟨_, handle_normal_far w hn, rfl, rfl, rfl, ?_⟩
  rw [effects_since_append w _ _ rfl]
  simp [hid_calls, Effect.isHid]

/-- C7 in NORMAL with `currentMode = 2`. -/
theorem far_enters_selection_witness :
    ∃ w', handle DIR_FAR { World.init with current_mode := 2 } = some w' ∧
      w'.is_mode_selection = true ∧
      w'.selected_mode = ({ World.init with current_mode := 2 } : World).current_mode ∧
      w'.current_mode = ({ World.init with current_mode := 2 } : World).current_mode ∧
      hid_calls (effects_since { World.init with current_mode := 2 } w') = [] :=
  far_enters_selection { World.init with current_mode := 2 } rfl

/-- C5: for every SELECTING state (modes in `0..MODE_N-1`, as the data model
has them), a NEAR gesture sets `currentMode` to `selectedMode`, leaves
`selectedMode` unchanged and the machine stays in SELECTING; and for every
gesture code, the machine leaves SELECTING exactly when the code is FAR. -/
theorem near_commits_and_stays (w : World) (hs : w.is_mode_selection = true)
    (hc : w.current_mode < MODE_N) (hsel : w.selected_mode < MODE_N) :
    (∃ w', handle DIR_NEAR w = some w' ∧ w'.current_mode = w.selected_mode ∧
      w'.selected_mode = w.selected_mode ∧ w'.is_mode_selection = true) ∧
    (∀ g : Int, ∃ w', handle g w = some w' ∧ (w'.is_mode_selection = false ↔ g = DIR_FAR)) := by
  constructor
  · obtain ⟨w', hw', hst, -, -⟩ :=
      handle_selecting_some w DIR_NEAR hs (shown_mode_switch_lt w DIR_NEAR hc hsel hs)
    refine ⟨w', hw', ?_⟩
    simp [mode_state, mode_switch, DIR_NEAR, DIR_FAR] at hst
    exact ⟨hst.1, hst.2.1, hst.2.2⟩
  · intro g
    obtain ⟨w', hw', hst, -, -⟩ :=
      handle_selecting_some w g hs (shown_mode_switch_lt w g hc hsel hs)
    refine ⟨w', hw', ?_⟩
    have h3 : w'.is_mode_selection = (mode_switch g w).is_mode_selection := by
      simpa [mode_state] using congrArg (fun t => t.2.2) hst
    rw [h3]
    simp only [mode_switch]
    split_ifs with h1 <;> simp [hs, h1]

/-- C5 in SELECTING with `currentMode = 0` and `selectedMode = 3`. -/
theorem near_commits_and_stays_witness :
    (∃ w', handle DIR_NEAR { World.init with is_mode_selection := true, selected_mode := 3 }
        = some w' ∧ w'.current_mode = 3 ∧ w'.selected_mode = 3 ∧ w'.is_mode_selection = true) ∧
    (∀ g : Int, ∃ w',
      handle g { World.init with is_mode_selection := true, selected_mode := 3 } = some w' ∧
      (w'.is_mode_selection = false ↔ g = DIR_FAR)) :=
  near_commits_and_stays { World.init with is_mode_selection := true, selected_mode := 3 }
    rfl (by decide) (by decide)

/-- RIGHT while selecting: next mode, wrapping. -/
theorem handle_right_selecting (w : World) (hs : w.is_mode_selection = true) :
    ∃ w', handle DIR_RIGHT w = some w' ∧ w'.current_mode = w.current_mode ∧
      w'.selected_mode = (w.selected_mode + 1) % MODE_N ∧ w'.is_mode_selection = true := by
  have hsw : mode_switch DIR_RIGHT w =
      { w with selected_mode := (w.selected_mode + 1) % MODE_N } := by
    simp [mode_switch, DIR_RIGHT, DIR_FAR, DIR_NEAR, DIR_LEFT]
  have hshown : shown_mode (mode_switch DIR_RIGHT w) < MODE_N := by
    rw [hsw]; simp only [shown_mode, hs, if_true]
    exact Nat.mod_lt _ (by decide)
  obtain ⟨w', hw', hst, -, -⟩ := handle_selecting_some w DIR_RIGHT hs hshown
  rw [hsw] at hst
  simp [mode_state] at hst
  exact ⟨w', hw', hst.1, hst.2.1, by rw [hst.2.2, hs]⟩

/-- LEFT while selecting, from a mode in range: previous mode, wrapping. -/
theorem handle_left_selecting (w : World) (hs : w.is_mode_selection = true)
    (hsel : w.selected_mode < MODE_N) :
    ∃ w', handle DIR_LEFT w = some w' ∧ w'.current_mode = w.current_mode ∧
      w'.selected_mode = (if w.selected_mode = 0 then MODE_N - 1 else w.selected_mode - 1) ∧
      w'.is_mode_selection = true := by
  have hsw : mode_switch DIR_LEFT w =
      { w with selected_mode :=
          if w.selected_mode = 0 then MODE_N - 1 else w.selected_mode - 1 } := by
    simp [mode_switch, DIR_FAR, DIR_NEAR, DIR_LEFT]
  have hshown : shown_mode (mode_switch DIR_LEFT w) < MODE_N := by
    rw [hsw]; simp only [shown_mode, hs, if_true, MODE_N] at hsel ⊢
    split_ifs <;> omega
  obtain ⟨w', hw', hst, -, -⟩ := handle_selecting_some w DIR_LEFT hs hshown
  rw [hsw] at hst
  simp [mode_state] at hst
  exact ⟨w', hw', hst.1, hst.2.1, by rw [hst.2.2, hs]⟩

/-- After `n` RIGHT gestures while selecting, `selectedMode` has advanced by `n`. -/
theorem handle_all_right (n : Nat) (w : World) (hs : w.is_mode_selection = true)
    (hsel : w.selected_mode < MODE_N) :
    ∃ w', handle_all (List.replicate n DIR_RIGHT) w = some w' ∧
      w'.current_mode = w.current_mode ∧ w'.is_mode_selection = true ∧
      w'.selected_mode = (w.selected_mode + n) % MODE_N := by
  induction n generalizing w with
  | zero =>
    exact ⟨w, rfl, rfl, hs, by simp [Nat.mod_eq_of_lt hsel]⟩
  | succ n ih =>
    obtain ⟨w1, h1, hc1, hsel1, hs1⟩ := handle_right_selecting w hs
    obtain ⟨w2, h2, hc2, hs2, hsel2⟩ :=
      ih w1 hs1 (by rw [hsel1]; exact Nat.mod_lt _ (by decide))
    refine ⟨w2, ?_, by rw [hc2, hc1], hs2, ?_⟩
    · simp [List.replicate_succ, handle_all, h1, h2]
    · rw [hsel2, hsel1]; simp only [ MODE_N]; omega

/-- After `n` LEFT gestures while selecting, `selectedMode` has gone back by `n`. -/
theorem handle_all_left (n : Nat) (w : World) (hs : w.is_mode_selection = true)
    (hsel : w.selected_mode < MODE_N) :
    ∃ w', handle_all (List.replicate n DIR_LEFT) w = some w' ∧
      w'.current_mode = w.current_mode ∧ w'.is_mode_selection = true ∧
      (w'.selected_mode : Int) = ((w.selected_mode : Int) - n) % (MODE_N : Int) := by
  induction n generalizing w with
  | zero =>
    refine ⟨w, rfl, rfl, hs, ?_⟩
    simp only [ MODE_N] at hsel ⊢
    omega
  | succ n ih =>
    obtain ⟨w1, h1, hc1, hsel1, hs1⟩ := handle_left_selecting w hs hsel
    have hlt : w1.selected_mode < MODE_N := by
      rw [hsel1]; simp only [ MODE_N] at hsel ⊢; split_ifs <;> omega
    obtain ⟨w2, h2, hc2, hs2, hsel2⟩ := ih w1 hs1 hlt
    refine ⟨w2, ?_, by rw [hc2, hc1], hs2, ?_⟩
    · simp [List.replicate_succ, handle_all, h1, h2]
    · rw [hsel2, hsel1]
      simp only [ MODE_N] at hsel ⊢
      split_ifs with h0
      · simp only [h0]; push_cast; omega
      · push_cast [Nat.cast_sub (Nat.one_le_iff_ne_zero.mpr h0)]; omega

/-- C4: mode cycling wraps.  For every SELECTING state with `selectedMode = s`
in `[0, MODE_N)`: RIGHT sets `selectedMode` to `(s + 1) mod MODE_N` and LEFT
sets it to `(s - 1) mod MODE_N`; any number `n` of consecutive RIGHT (LEFT)
gestures leaves `currentMode` and the SELECTING sub-state unchanged and moves
`selectedMode` to `(s + n) mod MODE_N` (`(s - n) mod MODE_N`); and `MODE_N`
consecutive RIGHT gestures, like `MODE_N` consecutive LEFT gestures, return
`selectedMode` to `s`. -/
theorem mode_cycling_wraps (w : World) (hs : w.is_mode_selection = true)
    (hsel : w.selected_mode < MODE_N) :
    (∃ w', handle DIR_RIGHT w = some w' ∧
      mode_state w' = (w.current_mode, (w.selected_mode + 1) % MODE_N, true)) ∧
    (∃ w', handle DIR_LEFT w = some w' ∧ w'.current_mode = w.current_mode ∧
      w'.is_mode_selection = true ∧
      (w'.selected_mode : Int) = ((w.selected_mode : Int) - 1) % (MODE_N : Int)) ∧
    (∀ n : Nat, ∃ w', handle_all (List.replicate n DIR_RIGHT) w = some w' ∧
      mode_state w' = (w.current_mode, (w.selected_mode + n) % MODE_N, true)) ∧
    (∀ n : Nat, ∃ w', handle_all (List.replicate n DIR_LEFT) w = some w' ∧
      w'.current_mode = w.current_mode ∧ w'.is_mode_selection = true ∧
      (w'.selected_mode : Int) = ((w.selected_mode : Int) - n) % (MODE_N : Int)) ∧
    (∃ w', handle_all (List.replicate MODE_N DIR_RIGHT) w = some w' ∧
      mode_state w' = mode_state w) ∧
    (∃ w', handle_all (List.replicate MODE_N DIR_LEFT) w = some w' ∧
      mode_state w' = mode_state w) := by
  refine ⟨?_, ?_, ?_, ?_, ?_, ?_⟩
  · obtain ⟨w', h, hc, hsl, hms⟩ := handle_right_selecting w hs
    exact ⟨w', h, by simp [mode_state, hc, hsl, hms]⟩
  · obtain ⟨w', h, hc, hms, hsl⟩ := handle_all_left 1 w hs hsel
    refine ⟨w', ?_, hc, hms, by simpa using hsl⟩
    simp only [List.replicate, handle_all] at h
    cases hh : handle DIR_LEFT w with
    | none => simp [hh] at h
    | some w1 => simpa [hh] using h
  · intro n
    obtain ⟨w', h, hc, hms, hsl⟩ := handle_all_right n w hs hsel
    exact ⟨w', h, by simp [mode_state, hc, hsl, hms]⟩
  · intro n
    exact handle_all_left n w hs hsel
  · obtain ⟨w', h, hc, hms, hsl⟩ := handle_all_right MODE_N w hs hsel
    refine ⟨w', h, ?_⟩
    have : w'.selected_mode = w.selected_mode := by
      rw [hsl]; simp only [ MODE_N] at hsel ⊢; omega
    simp [mode_state, hc, hms, hs, this]
  · obtain ⟨w', h, hc, hms, hsl⟩ := handle_all_left MODE_N w hs hsel
    refine ⟨w', h, ?_⟩
    have : w'.selected_mode = w.selected_mode := by
      simp only [ MODE_N] at hsel hsl; omega
    simp [mode_state, hc, hms, hs, this]

/-- C4 in SELECTING with `selectedMode = 5` (RIGHT wraps to 0) and `currentMode = 2`. -/
theorem mode_cycling_wraps_witness :
    (∃ w', handle DIR_RIGHT ⟨2, 5, false, true, none, []⟩ = some w' ∧
      mode_state w' = (2, (5 + 1) % MODE_N, true)) ∧
    (∃ w', handle DIR_LEFT ⟨2, 5, false, true, none, []⟩ = some w' ∧ w'.current_mode = 2 ∧
      w'.is_mode_selection = true ∧
      (w'.selected_mode : Int) = (((5 : Nat) : Int) - 1) % (MODE_N : Int)) ∧
    (∀ n : Nat, ∃ w', handle_all (List.replicate n DIR_RIGHT) ⟨2, 5, false, true, none, []⟩
        = some w' ∧ mode_state w' = (2, (5 + n) % MODE_N, true)) ∧
    (∀ n : Nat, ∃ w', handle_all (List.replicate n DIR_LEFT) ⟨2, 5, false, true, none, []⟩
        = some w' ∧ w'.current_mode = 2 ∧ w'.is_mode_selection = true ∧
      (w'.selected_mode : Int) = (((5 : Nat) : Int) - n) % (MODE_N : Int)) ∧
    (∃ w', handle_all (List.replicate MODE_N DIR_RIGHT) ⟨2, 5, false, true, none, []⟩ = some w' ∧
      mode_state w' = mode_state ⟨2, 5, false, true, none, []⟩) ∧
    (∃ w', handle_all (List.replicate MODE_N DIR_LEFT) ⟨2, 5, false, true, none, []⟩ = some w' ∧
      mode_state w' = mode_state ⟨2, 5, false, true, none, []⟩) :=
  mode_cycling_wraps ⟨2, 5, false, true, none, []⟩ rfl (by decide)

/-- NEAR while selecting, with the selected mode in range: commit, stay selecting. -/
theorem handle_near_selecting (w : World) (hs : w.is_mode_selection = true)
    (hsel : w.selected_mode < MODE_N) :
    ∃ w', handle DIR_NEAR w = some w' ∧ w'.current_mode = w.selected_mode ∧
      w'.selected_mode = w.selected_mode ∧ w'.is_mode_selection = true := by
  have hsw : mode_switch DIR_NEAR w =
      { w with is_mode_selection := true, current_mode := w.selected_mode } := by
    simp [mode_switch, DIR_FAR, DIR_NEAR]
  have hshown : shown_mode (mode_switch DIR_NEAR w) < MODE_N := by
    rw [hsw]; simpa [shown_mode] using hsel
  obtain ⟨w', hw', hst, -, -⟩ := handle_selecting_some w DIR_NEAR hs hshown
  rw [hsw] at hst
  simp [mode_state] at hst
  exact ⟨w', hw', hst.1, hst.2.1, hst.2.2⟩

/-- FAR while selecting, with the current mode in range: back to NORMAL, modes kept. -/
theorem handle_far_selecting (w : World) (hs : w.is_mode_selection = true)
    (hc : w.current_mode < MODE_N) :
    ∃ w', handle DIR_FAR w = some w' ∧ w'.current_mode = w.current_mode ∧
      w'.selected_mode = w.selected_mode ∧ w'.is_mode_selection = false := by
  have hsw : mode_switch DIR_FAR w = { w with is_mode_selection := false } := by
    simp [mode_switch]
  have hshown : shown_mode (mode_switch DIR_FAR w) < MODE_N := by
    rw [hsw]; simpa [shown_mode] using hc
  obtain ⟨w', hw', hst, -, -⟩ := handle_selecting_some w DIR_FAR hs hshown
  rw [hsw] at hst
  simp [mode_state] at hst
  exact ⟨w', hw', hst.1, hst.2.1, hst.2.2⟩

/-- C6: Scenario C, generalised.  For every SELECTING state with
`selectedMode = s` in `[0, MODE_N)`, the gestures RIGHT, RIGHT, NEAR, FAR are
all handled; `selectedMode` is `(s + 2) mod MODE_N` before the NEAR,
`currentMode` is `(s + 2) mod MODE_N` after the NEAR, and after the final FAR
the state is NORMAL with `currentMode` still `(s + 2) mod MODE_N`. -/
theorem scenario_c (w : World) (hs : w.is_mode_selection = true)
    (hsel : w.selected_mode < MODE_N) :
    ∃ w2 w3 w4, handle_all [DIR_RIGHT, DIR_RIGHT] w = some w2 ∧
      w2.selected_mode = (w.selected_mode + 2) % MODE_N ∧
      handle DIR_NEAR w2 = some w3 ∧ w3.current_mode = (w.selected_mode + 2) % MODE_N ∧
      handle DIR_FAR w3 = some w4 ∧ w4.is_mode_selection = false ∧
      w4.current_mode = (w.selected_mode + 2) % MODE_N ∧
      handle_all [DIR_RIGHT, DIR_RIGHT, DIR_NEAR, DIR_FAR] w = some w4 := by
  obtain ⟨w2, h2, -, hs2, hsel2⟩ := handle_all_right 2 w hs hsel
  have hlt2 : w2.selected_mode < MODE_N := by rw [hsel2]; exact Nat.mod_lt _ (by decide)
  obtain ⟨w3, h3, hc3, -, hs3⟩ := handle_near_selecting w2 hs2 hlt2
  obtain ⟨w4, h4, hc4, -, hs4⟩ := handle_far_selecting w3 hs3 (by rw [hc3]; exact hlt2)
  have h2' : handle_all [DIR_RIGHT, DIR_RIGHT] w = some w2 := h2
  refine ⟨w2, w3, w4, h2', hsel2, h3, by rw [hc3, hsel2], h4, hs4, by rw [hc4, hc3, hsel2], ?_⟩
  have happ := handle_all_append [DIR_RIGHT, DIR_RIGHT] [DIR_NEAR, DIR_FAR] w
  simp only [List.cons_append, List.nil_append] at happ
  rw [happ, h2']
  simp [handle_all, h3, h4]

/-- C6 at `s = 0` (and `currentMode = 0`): the committed mode is 2. -/
theorem scenario_c_witness :
    ∃ w2 w3 w4, handle_all [DIR_RIGHT, DIR_RIGHT] ⟨0, 0, false, true, none, []⟩ = some w2 ∧
      w2.selected_mode = (0 + 2) % MODE_N ∧
      handle DIR_NEAR w2 = some w3 ∧ w3.current_mode = (0 + 2) % MODE_N ∧
      handle DIR_FAR w3 = some w4 ∧ w4.is_mode_selection = false ∧
      w4.current_mode = (0 + 2) % MODE_N ∧
      handle_all [DIR_RIGHT, DIR_RIGHT, DIR_NEAR, DIR_FAR] ⟨0, 0, false, true, none, []⟩
        = some w4 :=
  scenario_c ⟨0, 0, false, true, none, []⟩ rfl (by decide)

/-- Any run of LEFT, RIGHT and NEAR gestures from a SELECTING state with both
modes in range is handled, stays in SELECTING with both modes in range, and
without a NEAR leaves `currentMode` as it was. -/
theorem selecting_run (seq : List Int) (w : World) (hs : w.is_mode_selection = true)
    (hc : w.current_mode < MODE_N) (hsel : w.selected_mode < MODE_N)
    (hseq : ∀ g ∈ seq, g = DIR_LEFT ∨ g = DIR_RIGHT ∨ g = DIR_NEAR) :
    ∃ w', handle_all seq w = some w' ∧ w'.is_mode_selection = true ∧
      w'.current_mode < MODE_N ∧ w'.selected_mode < MODE_N ∧
      (DIR_NEAR ∉ seq → w'.current_mode = w.current_mode) := by
  induction seq generalizing w with
  | nil => exact ⟨w, rfl, hs, hc, hsel, fun _ => rfl⟩
  | cons g gs ih =>
    have hgs : ∀ x ∈ gs, x = DIR_LEFT ∨ x = DIR_RIGHT ∨ x = DIR_NEAR :=
      fun x hx => hseq x (List.mem_cons_of_mem _ hx)
    rcases hseq g (List.mem_cons_self _ _) with rfl | rfl | rfl
    · obtain ⟨w1, h1, hc1, hsel1, hs1⟩ := handle_left_selecting w hs hsel
      have hlt : w1.selected_mode < MODE_N := by
        rw [hsel1]; simp only [ MODE_N] at hsel ⊢; split_ifs <;> omega
      obtain ⟨w', h', hs', hc', hsel', hkeep⟩ := ih w1 hs1 (by rw [hc1]; exact hc) hlt hgs
      refine ⟨w', by simp [handle_all, h1, h'], hs', hc', hsel', fun hno => ?_⟩
      rw [hkeep (fun hmem => hno (List.mem_cons_of_mem _ hmem)), hc1]
    · obtain ⟨w1, h1, hc1, hsel1, hs1⟩ := handle_right_selecting w hs
      have hlt : w1.selected_mode < MODE_N := by
        rw [hsel1]; exact Nat.mod_lt _ (by decide)
      obtain ⟨w', h', hs', hc', hsel', hkeep⟩ := ih w1 hs1 (by rw [hc1]; exact hc) hlt hgs
      refine ⟨w', by simp [handle_all, h1, h'], hs', hc', hsel', fun hno => ?_⟩
      rw [hkeep (fun hmem => hno (List.mem_cons_of_mem _ hmem)), hc1]
    · obtain ⟨w1, h1, hc1, hsel1, hs1⟩ := handle_near_selecting w hs hsel
      obtain ⟨w', h', hs', hc', hsel', -⟩ :=
        ih w1 hs1 (by rw [hc1]; exact hsel) (by rw [hsel1]; exact hsel) hgs
      exact ⟨w', by simp [handle_all, h1, h'], hs', hc', hsel',
        fun hno => absurd (List.mem_cons_self _ _) hno⟩

/-- C3, as stated, fails: from the initial NORMAL state with `currentMode = 0`,
the gestures FAR, RIGHT, NEAR, FAR end in NORMAL with `currentMode = 1`: the
NEAR committed the selected mode and the closing FAR did not restore 0. -/
theorem cancel_after_near_keeps_commit :
    World.init.is_mode_selection = false ∧ World.init.current_mode = 0 ∧
    (handle_all [DIR_FAR, DIR_RIGHT, DIR_NEAR, DIR_FAR] World.init).map mode_state
      = some (1, 1, false) := by
  decide

/-- C3, amended: for every NORMAL state with `currentMode = m` in
`[0, MODE_N)`, FAR followed by any finite sequence of LEFT, RIGHT and NEAR
gestures followed by FAR is handled and ends in NORMAL; if the sequence holds
no NEAR, `currentMode` is `m` again. -/
theorem cancel_restores_without_near (w : World) (seq : List Int)
    (hn : w.is_mode_selection = false) (hm : w.current_mode < MODE_N)
    (hseq : ∀ g ∈ seq, g = DIR_LEFT ∨ g = DIR_RIGHT ∨ g = DIR_NEAR) :
    ∃ w', handle_all (DIR_FAR :: (seq ++ [DIR_FAR])) w = some w' ∧
      w'.is_mode_selection = false ∧
      (DIR_NEAR ∉ seq → w'.current_mode = w.current_mode) := by
  obtain ⟨w1, h1, hs1, hsel1, hc1⟩ :
      ∃ w1, handle DIR_FAR w = some w1 ∧ w1.is_mode_selection = true ∧
        w1.selected_mode = w.current_mode ∧ w1.current_mode = w.current_mode :=
    ⟨_, handle_normal_far w hn, rfl, rfl, rfl⟩
  obtain ⟨w2, h2, hs2, hc2, -, hkeep⟩ :=
    selecting_run seq w1 hs1 (by rw [hc1]; exact hm) (by rw [hsel1]; exact hm) hseq
  obtain ⟨w3, h3, hc3, -, hs3⟩ := handle_far_selecting w2 hs2 hc2
  refine ⟨w3, ?_, hs3, fun hno => by rw [hc3, hkeep hno, hc1]⟩
  simp [handle_all, h1, handle_all_append, h2, h3]

/-- C3 amended, at `m = 4` with the gestures LEFT, RIGHT, RIGHT in between. -/
theorem cancel_restores_without_near_witness :
    ∃ w', handle_all (DIR_FAR :: ([DIR_LEFT, DIR_RIGHT, DIR_RIGHT] ++ [DIR_FAR]))
        { World.init with current_mode := 4 } = some w' ∧
      w'.is_mode_selection = false ∧
      (DIR_NEAR ∉ [DIR_LEFT, DIR_RIGHT, DIR_RIGHT] →
        w'.current_mode = ({ World.init with current_mode := 4 } : World).current_mode) :=
  cancel_restores_without_near { World.init with current_mode := 4 }
    [DIR_LEFT, DIR_RIGHT, DIR_RIGHT] rfl (by decide) (by decide)

/-! ## Unrecognized codes and the connectivity gate (claims C8, C9) -/

/-- C8, the code at the failing inputs.  In the initial NORMAL state (mode 0):
the code `DIR_NONE = 0` is mapped to column 0, the cell of LEFT, and its
play/pause key is pressed; the code 7 is mapped to column 6 and the driver's
error value 255 to column 254, both outside the six-column table row, so the
table read is out of bounds. -/
theorem unrecognized_code_not_ignored :
    map_apds_gesture DIR_NONE = map_apds_gesture DIR_LEFT ∧
    (handle DIR_NONE World.init).map (fun w => hid_calls w.trace) =
      some [Effect.releaseAll, Effect.press 0, Effect.press 0, Effect.press 0,
        Effect.pressMedia MediaKey.KEY_MEDIA_PLAY_PAUSE, Effect.releaseAll] ∧
    map_apds_gesture DIR_ALL = 6 ∧ actions_at 0 6 = none ∧ handle DIR_ALL World.init = none ∧
    map_apds_gesture APDS_ERROR = 254 ∧ actions_at 0 254 = none ∧
    handle APDS_ERROR World.init = none := by
  decide

theorem run_loop_disconnected (n : Nat) (w : World) :
    run_loop (List.replicate n false) w = some w := by
  induction n with
  | zero => rfl
  | succ n ih => simpa [List.replicate_succ, run_loop, loop] using ih

theorem run_loop_append (xs ys : List Bool) (w : World) :
    run_loop (xs ++ ys) w = (run_loop xs w).bind (run_loop ys) := by
  induction xs generalizing w with
  | nil => simp [run_loop]
  | cons x xs ih =>
    simp only [List.cons_append, run_loop]
    cases loop x w with
    | none => simp
    | some w1 => simp [ih]

/-- The worlds after each statement of a processing pass. -/
theorem exec_stmts_pass_body (w : World) :
    exec_stmts pass_body w =
      (handle_gesture (emit (Effect.detachInterrupt APDS_INT_PIN) w)).map (fun w2 =>
        [emit (Effect.detachInterrupt APDS_INT_PIN) w, w2, blink_apds_led w2,
         { blink_apds_led w2 with is_adsp_isr := false }, finish_pass w2]) := by
  simp only [pass_body, exec_stmts, exec_stmt]
  cases handle_gesture (emit (Effect.detachInterrupt APDS_INT_PIN) w) <;> rfl

theorem loop_connected_pending (w : World) (hp : w.is_adsp_isr = true) :
    loop true w =
      (handle_gesture (emit (Effect.detachInterrupt APDS_INT_PIN) w)).map finish_pass := by
  simp only [loop, hp, if_true, exec_stmts_pass_body]
  cases handle_gesture (emit (Effect.detachInterrupt APDS_INT_PIN) w) <;> rfl

/-- C9, as stated, fails: a LEFT gesture arrives and its interrupt sets
`is_adsp_isr` in the initial state; two loop passes with the transport not
connected change nothing; the next pass, with the transport connected and no
further interrupt, reads the sensor and presses the play/pause key. -/
theorem pending_gesture_processed_after_reconnect :
    (isr (sense DIR_LEFT World.init)).is_adsp_isr = true ∧
    run_loop [false, false] (isr (sense DIR_LEFT World.init))
      = some (isr (sense DIR_LEFT World.init)) ∧
    (run_loop [false, false, true] (isr (sense DIR_LEFT World.init))).map (fun w => w.trace) =
      some [Effect.detachInterrupt 10, Effect.isGestureAvailable, Effect.readGesture,
        Effect.releaseAll, Effect.press 0, Effect.press 0, Effect.press 0,
        Effect.pressMedia MediaKey.KEY_MEDIA_PLAY_PAUSE, Effect.releaseAll,
        Effect.digitalWrite 9 0, Effect.delay 250, Effect.digitalWrite 9 1, Effect.delay 250,
        Effect.digitalWrite 9 0, Effect.delay 250, Effect.attachInterrupt 10] := by
  decide

/-- C9, amended: a gesture arriving while the HID transport is disconnected is
kept pending.  For every state in which the interrupt has set `is_adsp_isr`,
any number of loop passes with the transport not connected leave the whole
state as it is (no sensor read, no HID call, no mode change, `is_adsp_isr`
still set), and the next pass with the transport connected is a processing
pass: it detaches the interrupt, runs `handle_gesture`, blinks, clears
`is_adsp_isr` and re-attaches the interrupt. -/
theorem disconnected_passes_keep_pending (w : World) (n : Nat) (hp : w.is_adsp_isr = true) :
    run_loop (List.replicate n false) w = some w ∧
    run_loop (List.replicate n false ++ [true]) w =
      (handle_gesture (emit (Effect.detachInterrupt APDS_INT_PIN) w)).map finish_pass := by
  refine ⟨run_loop_disconnected n w, ?_⟩
  rw [run_loop_append, run_loop_disconnected n w, ← loop_connected_pending w hp]
  simp only [Option.some_bind, run_loop]
  cases loop true w <;> rfl

/-- C9 amended, at the initial state with a pending LEFT gesture and three
disconnected passes. -/
theorem disconnected_passes_keep_pending_witness :
    run_loop (List.replicate 3 false) (isr (sense DIR_LEFT World.init))
      = some (isr (sense DIR_LEFT World.init)) ∧
    run_loop (List.replicate 3 false ++ [true]) (isr (sense DIR_LEFT World.init)) =
      (handle_gesture (emit (Effect.detachInterrupt APDS_INT_PIN)
        (isr (sense DIR_LEFT World.init)))).map finish_pass :=
  disconnected_passes_keep_pending (isr (sense DIR_LEFT World.init)) 3 rfl

/-- C10: Scenario A.  In NORMAL with `currentMode = 0`, LEFT is column 0 and
cell (0, 0) is the play/pause media action; handling LEFT makes exactly the
HID calls release-all, three presses of the (empty) modifier slots, the press
of `KEY_MEDIA_PLAY_PAUSE` as a media key, release-all; the final HID call is
release-all and the mode state is unchanged. -/
theorem scenario_a (w : World) (hn : w.is_mode_selection = false) (h0 : w.current_mode = 0) :
    map_apds_gesture DIR_LEFT = 0 ∧
    actions_at 0 0 = some (media_action MediaKey.KEY_MEDIA_PLAY_PAUSE) ∧
    ∃ w', handle DIR_LEFT w = some w' ∧
      hid_calls (effects_since w w') =
        [Effect.releaseAll, Effect.press 0, Effect.press 0, Effect.press 0,
          Effect.pressMedia MediaKey.KEY_MEDIA_PLAY_PAUSE, Effect.releaseAll] ∧
      (hid_calls (effects_since w w')).getLast? = some Effect.releaseAll ∧
      mode_state w' = mode_state w := by
  have ha : actions_at w.current_mode (map_apds_gesture DIR_LEFT) =
      some (media_action MediaKey.KEY_MEDIA_PLAY_PAUSE) := by rw [h0]; rfl
  have hcalls : hid_calls (effects_since w { w with
      apds := none
      trace := w.trace ++ ([Effect.isGestureAvailable, Effect.readGesture] ++
        dispatch_calls (media_action MediaKey.KEY_MEDIA_PLAY_PAUSE)
          (Effect.pressMedia MediaKey.KEY_MEDIA_PLAY_PAUSE)) }) =
      [Effect.releaseAll, Effect.press 0, Effect.press 0, Effect.press 0,
        Effect.pressMedia MediaKey.KEY_MEDIA_PLAY_PAUSE, Effect.releaseAll] := by
    rw [effects_since_append w _ _ rfl,
      hid_calls_handled_dispatch (media_action MediaKey.KEY_MEDIA_PLAY_PAUSE)
        (Effect.pressMedia MediaKey.KEY_MEDIA_PLAY_PAUSE) rfl]
    rfl
  refine ⟨rfl, rfl, _, handle_normal_dispatch w DIR_LEFT _ _ hn (by decide) ha rfl rfl,
    hcalls, ?_, rfl⟩
  rw [hcalls]; rfl

/-- C10 at the initial state. -/
theorem scenario_a_witness :
    map_apds_gesture DIR_LEFT = 0 ∧
    actions_at 0 0 = some (media_action MediaKey.KEY_MEDIA_PLAY_PAUSE) ∧
    ∃ w', handle DIR_LEFT World.init = some w' ∧
      hid_calls (effects_since World.init w') =
        [Effect.releaseAll, Effect.press 0, Effect.press 0, Effect.press 0,
          Effect.pressMedia MediaKey.KEY_MEDIA_PLAY_PAUSE, Effect.releaseAll] ∧
      (hid_calls (effects_since World.init w')).getLast? = some Effect.releaseAll ∧
      mode_state w' = mode_state World.init :=
  scenario_a World.init rfl rfl

/-! ## Scenario D, the column mapping, the exact dispatch and the table (claims C11, C14, C18, C19) -/

/-- The list of HID calls of a dispatch starts with release-all. -/
theorem dispatch_calls_head (a : KeyAction) (k : Effect) :
    ∃ rest, dispatch_calls a k = Effect.releaseAll :: rest :=
  ⟨a.modifier.map Effect.press ++ [k] ++ (if a.should_hold then [] else [Effect.releaseAll]),
    by simp [dispatch_calls]⟩

/-- In NORMAL with the mode in range, a cardinal gesture is handled and its
first HID call is release-all. -/
theorem handle_cardinal_release_first (w : World) (g : Int)
    (hn : w.is_mode_selection = false) (hm : w.current_mode < MODE_N) (hg : g ∈ cardinal) :
    ∃ w' rest, handle g w = some w' ∧
      hid_calls (effects_since w w') = Effect.releaseAll :: rest := by
  have hfar : g ≠ DIR_FAR := by
    rcases (mem_cardinal g).mp hg with h | h | h | h <;> simp [h, DIR_FAR]
  have hcol : map_apds_gesture g < ACTION_PER_MODE_N := by
    rcases (mem_cardinal g).mp hg with h | h | h | h <;> subst h <;> decide
  obtain ⟨a, ha⟩ := Option.isSome_iff_exists.mp
    ((actions_at_isSome w.current_mode (map_apds_gesture g)).mpr ⟨hm, hcol⟩)
  cases he : a.enabled
  · refine ⟨_, [], handle_normal_disabled w g a hn hfar ha he, ?_⟩
    rw [effects_since_append w _ _ rfl]
    simp [hid_calls, Effect.isHid]
  · obtain ⟨k, hk⟩ := actions_enabled_main_press _ _ a ha he
    obtain ⟨rest, hrest⟩ := dispatch_calls_head a k
    refine ⟨_, rest, handle_normal_dispatch w g a k hn hfar ha he hk, ?_⟩
    rw [effects_since_append w _ _ rfl,
      hid_calls_handled_dispatch a k (main_press_isPress a k hk), hrest]

/-- C11: Scenario D.  In NORMAL with `currentMode = 3`, an UP gesture is
handled, its HID calls are release-all, the three (empty) modifier presses and
the press of the literal key 'W' (87), with no release-all after that press;
the mode state is unchanged, and every cardinal gesture handled next starts
its HID calls with release-all, before any press. -/
theorem scenario_d (w : World) (hn : w.is_mode_selection = false) (h3 : w.current_mode = 3) :
    ∃ w', handle DIR_UP w = some w' ∧
      hid_calls (effects_since w w') =
        [Effect.releaseAll, Effect.press 0, Effect.press 0, Effect.press 0, Effect.press 87] ∧
      mode_state w' = mode_state w ∧
      ∀ g, g ∈ cardinal → ∃ w'' rest, handle g w' = some w'' ∧
        hid_calls (effects_since w' w'') = Effect.releaseAll :: rest := by
  have ha : actions_at w.current_mode (map_apds_gesture DIR_UP) = some (key_action 87 true) := by
    rw [h3]; rfl
  refine ⟨_, handle_normal_dispatch w DIR_UP _ (Effect.press 87) hn (by decide) ha rfl rfl,
    ?_, rfl, ?_⟩
  · rw [effects_since_append w _ _ rfl,
      hid_calls_handled_dispatch (key_action 87 true) (Effect.press 87) rfl]
    rfl
  · intro g hg
    exact handle_cardinal_release_first _ g hn (by simp only [h3]; decide) hg

/-- C11 at the state with `currentMode = 3` and nothing else set. -/
theorem scenario_d_witness :
    ∃ w', handle DIR_UP { World.init with current_mode := 3 } = some w' ∧
      hid_calls (effects_since { World.init with current_mode := 3 } w') =
        [Effect.releaseAll, Effect.press 0, Effect.press 0, Effect.press 0, Effect.press 87] ∧
      mode_state w' = mode_state { World.init with current_mode := 3 } ∧
      ∀ g, g ∈ cardinal → ∃ w'' rest, handle g w' = some w'' ∧
        hid_calls (effects_since w' w'') = Effect.releaseAll :: rest :=
  scenario_d { World.init with current_mode := 3 } rfl rfl

/-- C14: `map_apds_gesture` sends the sensor codes of LEFT, RIGHT, UP, DOWN to
the columns 0, 1, 2, 3 in that order, so the four cardinal directions map
injectively (no column is hit twice). -/
theorem cardinal_columns :
    map_apds_gesture DIR_LEFT = 0 ∧ map_apds_gesture DIR_RIGHT = 1 ∧
    map_apds_gesture DIR_UP = 2 ∧ map_apds_gesture DIR_DOWN = 3 ∧
    cardinal.map map_apds_gesture = [0, 1, 2, 3] ∧
    (cardinal.map map_apds_gesture).Nodup := by
  decide

/-- Every cell of the action table has its three modifier slots (all empty). -/
theorem actions_modifier (m v : Nat) (a : KeyAction) (ha : actions_at m v = some a) :
    a.modifier = [0, 0, 0] := by
  obtain ⟨hm, hv⟩ := actions_at_bounds m v a ha
  interval_cases m <;> interval_cases v <;>
    simp [actions_at, actions_rows] at ha <;> subst ha <;> rfl

/-- The main press is the media key when `is_media_key` is set, else the literal key. -/
theorem main_press_cases (a : KeyAction) (k : Effect) (hk : main_press a = some k) :
    (a.is_media_key = true → ∃ m, a.media_key = some m ∧ k = Effect.pressMedia m) ∧
    (a.is_media_key = false → k = Effect.press a.normal_key) := by
  unfold main_press at hk
  cases hmk : a.is_media_key <;> cases hp : a.media_key <;> simp [hmk, hp] at hk <;>
    simp [hk]

/-- C18: exact dispatch sequence.  For every mode in `[0, MODE_N)` and every
cardinal direction whose cell `a` is enabled, handling that gesture in NORMAL
succeeds and its HID calls are exactly: release-all, `press(a.modifier[0])`,
`press(a.modifier[1])`, `press(a.modifier[2])`, one press `k` of the main key
(the media-key identifier if `a.is_media_key`, the literal `a.normal_key`
otherwise), then one release-all exactly when `a.should_hold` is false. -/
theorem exact_dispatch_sequence (w : World) (g : Int) (a : KeyAction)
    (hn : w.is_mode_selection = false) (_hm : w.current_mode < MODE_N) (hg : g ∈ cardinal)
    (ha : actions_at w.current_mode (map_apds_gesture g) = some a) (he : a.enabled = true) :
    ∃ w' m0 m1 m2 k, handle g w = some w' ∧ a.modifier = [m0, m1, m2] ∧
      (a.is_media_key = true → ∃ m, a.media_key = some m ∧ k = Effect.pressMedia m) ∧
      (a.is_media_key = false → k = Effect.press a.normal_key) ∧
      hid_calls (effects_since w w') =
        [Effect.releaseAll, Effect.press m0, Effect.press m1, Effect.press m2, k] ++
          (if a.should_hold then [] else [Effect.releaseAll]) := by
  have hfar : g ≠ DIR_FAR := by
    rcases (mem_cardinal g).mp hg with h | h | h | h <;> simp [h, DIR_FAR]
  obtain ⟨k, hk⟩ := actions_enabled_main_press _ _ a ha he
  have hmod := actions_modifier _ _ a ha
  obtain ⟨hmedia, hlit⟩ := main_press_cases a k hk
  refine ⟨_, 0, 0, 0, k, handle_normal_dispatch w g a k hn hfar ha he hk, hmod, hmedia, hlit, ?_⟩
  rw [effects_since_append w _ _ rfl,
    hid_calls_handled_dispatch a k (main_press_isPress a k hk)]
  simp [dispatch_calls, hmod]

/-- C18 at mode 1, direction RIGHT (the mute media key, not held). -/
theorem exact_dispatch_sequence_witness :
    ∃ w' m0 m1 m2 k, handle DIR_RIGHT { World.init with current_mode := 1 } = some w' ∧
      (media_action MediaKey.KEY_MEDIA_MUTE).modifier = [m0, m1, m2] ∧
      ((media_action MediaKey.KEY_MEDIA_MUTE).is_media_key = true →
        ∃ m, (media_action MediaKey.KEY_MEDIA_MUTE).media_key = some m ∧
          k = Effect.pressMedia m) ∧
      ((media_action MediaKey.KEY_MEDIA_MUTE).is_media_key = false →
        k = Effect.press (media_action MediaKey.KEY_MEDIA_MUTE).normal_key) ∧
      hid_calls (effects_since { World.init with current_mode := 1 } w') =
        [Effect.releaseAll, Effect.press m0, Effect.press m1, Effect.press m2, k] ++
          (if (media_action MediaKey.KEY_MEDIA_MUTE).should_hold then []
            else [Effect.releaseAll]) :=
  exact_dispatch_sequence { World.init with current_mode := 1 } DIR_RIGHT
    (media_action MediaKey.KEY_MEDIA_MUTE) rfl (by decide) (by decide) (by decide) rfl

/-- C19: action-table key invariant.  For every enabled cell of the action
table, `is_media_key` is set if and only if `media_key` is non-null, and
`is_media_key` is clear if and only if `normal_key` is non-zero; hence the
dispatcher's main press is defined (`media_key` is only dereferenced when it
is non-null). -/
theorem actions_key_invariant (m v : Nat) (a : KeyAction)
    (ha : actions_at m v = some a) (he : a.enabled = true) :
    (a.is_media_key = true ↔ a.media_key ≠ none) ∧
    (a.is_media_key = false ↔ a.normal_key ≠ 0) ∧
    (main_press a).isSome = true := by
  obtain ⟨hm, hv⟩ := actions_at_bounds m v a ha
  interval_cases m <;> interval_cases v <;>
    simp [actions_at, actions_rows] at ha <;> subst ha <;>
    first | (simp [KeyAction.zero] at he) | decide

/-- C19 at cell (1, 2): Page Up, a literal key. -/
theorem actions_key_invariant_witness :
    ((key_action KEY_PAGE_UP false).is_media_key = true ↔
      (key_action KEY_PAGE_UP false).media_key ≠ none) ∧
    ((key_action KEY_PAGE_UP false).is_media_key = false ↔
      (key_action KEY_PAGE_UP false).normal_key ≠ 0) ∧
    (main_press (key_action KEY_PAGE_UP false)).isSome = true :=
  actions_key_invariant 1 2 (key_action KEY_PAGE_UP false) rfl rfl

/-! ## What a handled gesture does, branch by branch -/

/-- If `set_mode_led` succeeds, the shown mode was in range. -/
theorem set_mode_led_some (w w' : World) (h : set_mode_led w = some w') :
    shown_mode w < MODE_N := by
  by_contra hc
  have hnone : MODE_LED_PINS[shown_mode w]? = none := by
    apply List.getElem?_eq_none
    simp only [ MODE_N] at hc
    simp only [ MODE_LED_PINS, List.length_cons, List.length_nil]
    omega
  simp only [shown_mode] at hnone
  simp [set_mode_led, hnone] at h

/-- The `switch` does not touch the sensor buffer, the trace or `is_adsp_isr`. -/
theorem mode_switch_frame (g : Int) (w : World) :
    (mode_switch g w).trace = w.trace ∧ (mode_switch g w).apds = w.apds ∧
    (mode_switch g w).is_adsp_isr = w.is_adsp_isr := by
  simp only [mode_switch]; split_ifs <;> exact ⟨rfl, rfl, rfl⟩

/-- The mode state the `switch` computes does not depend on buffer and trace. -/
theorem mode_switch_mode_state (g : Int) (w : World) (ap : Option Int) (tr : List Effect) :
    mode_state (mode_switch g { w with apds := ap, trace := tr }) =
      mode_state (mode_switch g w) := by
  simp only [mode_switch, mode_state]; split_ifs <;> rfl

theorem shown_mode_eq (w v : World) (h : mode_state w = mode_state v) :
    shown_mode w = shown_mode v := by
  simp only [mode_state, Prod.mk.injEq] at h
  simp [shown_mode, h.1, h.2.1, h.2.2]

/-- A gesture handled while selecting: the mode to show was in range, the mode
state is the one the `switch` computes, and the calls are the two sensor calls
followed by the pin writes of `set_mode_led`. -/
theorem handle_selecting_spec (w w' : World) (g : Int) (hs : w.is_mode_selection = true)
    (h : handle g w = some w') :
    shown_mode (mode_switch g w) < MODE_N ∧ mode_state w' = mode_state (mode_switch g w) ∧
      w'.is_adsp_isr = w.is_adsp_isr ∧
      w'.trace = w.trace ++ ([Effect.isGestureAvailable, Effect.readGesture] ++
        led_writes (shown_mode (mode_switch g w) + 1)) := by
  have hst := mode_switch_mode_state g w none
    (w.trace ++ [Effect.isGestureAvailable, Effect.readGesture])
  have hshown := shown_mode_eq _ _ hst
  rw [handle_selecting w g hs, mode_selection] at h
  have hlt := set_mode_led_some _ _ h
  rw [set_mode_led_in_range _ hlt, Option.some.injEq] at h
  obtain ⟨htr, -, hir⟩ := mode_switch_frame g { w with
    apds := none
    trace := w.trace ++ [Effect.isGestureAvailable, Effect.readGesture] }
  subst h
  refine ⟨hshown ▸ hlt, hst, hir, ?_⟩
  simp only [htr, hshown, List.append_assoc]

/-- The normal action on a cell with `is_media_key` set and a null `media_key`
dereferences the null pointer. -/
theorem normal_action_null_media (w : World) (g : Int) (a : KeyAction)
    (ha : actions_at w.current_mode (map_apds_gesture g) = some a)
    (he : a.enabled = true) (hk : main_press a = none) :
    normal_action g w = none := by
  obtain ⟨cm, sm, ir, ims, ap, tr⟩ := w
  simp only at ha
  unfold main_press at hk
  simp only [normal_action, foldl_emit]
  cases hmk : a.is_media_key with
  | false => simp [hmk] at hk
  | true =>
    cases hp : a.media_key with
    | none => simp [emit, ha, he, hmk, hp]
    | some m => simp [hmk, hp] at hk

/-- If the normal action succeeds, the cell exists and either is disabled (one
release-all) or is enabled with a defined main press (the dispatch calls);
only the trace changes. -/
theorem normal_action_some (w w' : World) (g : Int) (h : normal_action g w = some w') :
    ∃ calls, w' = { w with trace := w.trace ++ calls } ∧
      (∃ rest, calls = Effect.releaseAll :: rest) ∧ hid_calls calls = calls := by
  cases ha : actions_at w.current_mode (map_apds_gesture g) with
  | none =>
    obtain ⟨cm, sm, ir, ims, ap, tr⟩ := w
    simp only at ha
    simp [normal_action, emit, ha] at h
  | some a =>
    cases he : a.enabled with
    | false =>
      rw [normal_action_disabled w g a ha he, Option.some.injEq] at h
      exact ⟨[Effect.releaseAll], h.symm, ⟨[], rfl⟩, rfl⟩
    | true =>
      cases hk : main_press a with
      | none => rw [normal_action_null_media w g a ha he hk] at h; simp at h
      | some k =>
        rw [normal_action_enabled w g a k ha he hk, Option.some.injEq] at h
        exact ⟨dispatch_calls a k, h.symm, dispatch_calls_head a k,
          hid_calls_dispatch a k (main_press_isPress a k hk)⟩

/-- A gesture other than FAR handled in NORMAL: the mode state and
`is_adsp_isr` are unchanged, and the calls are the two sensor calls followed
by HID calls that start with release-all. -/
theorem handle_normal_spec (w w' : World) (g : Int) (hn : w.is_mode_selection = false)
    (hg : g ≠ DIR_FAR) (h : handle g w = some w') :
    mode_state w' = mode_state w ∧ w'.is_adsp_isr = w.is_adsp_isr ∧
      ∃ calls, w'.trace = w.trace ++ ([Effect.isGestureAvailable, Effect.readGesture] ++ calls) ∧
        (∃ rest, calls = Effect.releaseAll :: rest) ∧ hid_calls calls = calls := by
  rw [handle_normal w g hn hg] at h
  obtain ⟨calls, hw', hhead, hhid⟩ := normal_action_some _ _ g h
  subst hw'
  exact ⟨rfl, rfl, calls, by simp, hhead, hhid⟩

/-! ## NEAR in NORMAL, key output while selecting, the indicator (claims C15, C20, C12, C13) -/

/-- Column 4, the column NEAR is mapped to, is a disabled cell in every mode. -/
theorem actions_near_column (m : Nat) (hm : m < MODE_N) :
    actions_at m (map_apds_gesture DIR_NEAR) = some KeyAction.zero := by
  simp only [ MODE_N] at hm
  interval_cases m <;> rfl

/-- C15, as stated, fails: NEAR in NORMAL calls release-all.  In the initial
state the HID calls of a NEAR gesture are one release-all; and in mode 3,
after UP has left 'W' held, the NEAR gesture adds a release-all, which
releases the held key. -/
theorem near_in_normal_calls_release_all :
    World.init.is_mode_selection = false ∧
    (handle DIR_NEAR World.init).map (fun w => hid_calls w.trace) = some [Effect.releaseAll] ∧
    (handle_all [DIR_UP, DIR_NEAR] { World.init with current_mode := 3 }).map
        (fun w => hid_calls w.trace) =
      some [Effect.releaseAll, Effect.press 0, Effect.press 0, Effect.press 0, Effect.press 87,
        Effect.releaseAll] := by
  decide

/-- C15, amended: for every NORMAL state with `currentMode` in `[0, MODE_N)`,
a NEAR gesture is handled, changes no state (mode state and `is_adsp_isr`) and
presses no key, but makes exactly one HID call, a release-all. -/
theorem near_in_normal_releases (w : World) (hn : w.is_mode_selection = false)
    (hm : w.current_mode < MODE_N) :
    ∃ w', handle DIR_NEAR w = some w' ∧ mode_state w' = mode_state w ∧
      w'.is_adsp_isr = w.is_adsp_isr ∧
      hid_calls (effects_since w w') = [Effect.releaseAll] := by
  refine ⟨_, handle_normal_disabled w DIR_NEAR KeyAction.zero hn (by decide)
    (actions_near_column _ hm) rfl, rfl, rfl, ?_⟩
  rw [effects_since_append w _ _ rfl]
  simp [hid_calls, Effect.isHid]

/-- C15 amended, at mode 3 with a pending interrupt flag. -/
theorem near_in_normal_releases_witness :
    ∃ w', handle DIR_NEAR ⟨3, 0, true, false, none, []⟩ = some w' ∧
      mode_state w' = mode_state ⟨3, 0, true, false, none, []⟩ ∧
      w'.is_adsp_isr = (⟨3, 0, true, false, none, []⟩ : World).is_adsp_isr ∧
      hid_calls (effects_since ⟨3, 0, true, false, none, []⟩ w') = [Effect.releaseAll] :=
  near_in_normal_releases ⟨3, 0, true, false, none, []⟩ rfl (by decide)

/-- C20: while SELECTING, no gesture produces key output.  For every
SELECTING state and every gesture code, whenever the gesture is handled no
call is made on the HID transport (no press and no release-all); and with both
modes in `[0, MODE_N)` the gesture is handled. -/
theorem selecting_no_key_output (w : World) (g : Int) (hs : w.is_mode_selection = true) :
    (∀ w', handle g w = some w' → hid_calls (effects_since w w') = []) ∧
    (w.current_mode < MODE_N → w.selected_mode < MODE_N → ∃ w', handle g w = some w') := by
  constructor
  · intro w' h
    obtain ⟨-, -, -, htr⟩ := handle_selecting_spec w w' g hs h
    rw [effects_since_append w w' _ htr]
    have hled := hid_calls_led_writes (shown_mode (mode_switch g w) + 1)
    simp only [hid_calls] at hled
    simp [hid_calls, List.filter_append, hled, Effect.isHid]
  · intro hc hsel
    obtain ⟨w', h, -⟩ := handle_selecting_some w g hs (shown_mode_switch_lt w g hc hsel hs)
    exact ⟨w', h⟩

/-- C20 while selecting mode 4 from mode 3, with an UP gesture, which ends in
the world written out below. -/
theorem selecting_no_key_output_witness :
    hid_calls (effects_since ⟨3, 4, false, true, none, []⟩
      ⟨3, 4, false, true, none,
        [Effect.isGestureAvailable, Effect.readGesture, Effect.digitalWrite 1 0,
         Effect.digitalWrite 2 0, Effect.digitalWrite 3 0, Effect.digitalWrite 4 0,
         Effect.digitalWrite 5 0, Effect.digitalWrite 6 0, Effect.digitalWrite 5 1]⟩) = [] ∧
    ∃ w', handle DIR_UP ⟨3, 4, false, true, none, []⟩ = some w' :=
  ⟨(selecting_no_key_output ⟨3, 4, false, true, none, []⟩ DIR_UP rfl).1 _ (by decide),
   (selecting_no_key_output ⟨3, 4, false, true, none, []⟩ DIR_UP rfl).2 (by decide) (by decide)⟩

theorem last_write_append (tr es : List Effect) (pin : Nat) :
    last_write (tr ++ es) pin = es.foldl (write_step pin) (last_write tr pin) := by
  simp [last_write, List.foldl_append]

/-- After the sensor calls and the writes of `set_mode_led` for mode `m`, the
pin of mode `i` is high exactly when `i = m`. -/
theorem last_write_led (tr : List Effect) (m i : Nat) (hm : m < MODE_N) (hi : i < MODE_N) :
    last_write (tr ++ ([Effect.isGestureAvailable, Effect.readGesture] ++ led_writes (m + 1)))
      (i + 1) = if i = m then some 1 else some 0 := by
  rw [last_write_append]
  simp only [ MODE_N] at hm hi
  interval_cases m <;> interval_cases i <;>
    simp [led_writes, MODE_LED_PINS, write_step]

/-- C12, the code at the failing input.  In the initial state (NORMAL,
`currentMode = 0`, no mode indicator output driven yet) a FAR gesture is
handled and gives SELECTING with `selectedMode = 0`, but writes no pin: none
of the `MODE_N` indicator outputs is active afterwards. -/
theorem far_from_initial_leaves_indicator_dark :
    (handle DIR_FAR World.init).map
        (fun w => (mode_state w, w.trace, (List.range MODE_N).map (led_active w))) =
      some ((0, 0, true), [Effect.isGestureAvailable, Effect.readGesture],
        [false, false, false, false, false, false]) := by
  decide

/-- C13: for every SELECTING state with `currentMode` and `selectedMode` in
`[0, MODE_N)` and every gesture code, the gesture is handled and afterwards
exactly one of the `MODE_N` mode indicator outputs is active: the one of
`selectedMode` if the machine is still SELECTING, otherwise the one of
`currentMode`. -/
theorem selecting_indicator_refreshed (w : World) (g : Int) (hs : w.is_mode_selection = true)
    (hc : w.current_mode < MODE_N) (hsel : w.selected_mode < MODE_N) :
    ∃ w', handle g w = some w' ∧
      indicator_shows w' (if w'.is_mode_selection then w'.selected_mode else w'.current_mode) := by
  obtain ⟨w', h, -⟩ := handle_selecting_some w g hs (shown_mode_switch_lt w g hc hsel hs)
  obtain ⟨hlt, hst, -, htr⟩ := handle_selecting_spec w w' g hs h
  have hshown : shown_mode w' = shown_mode (mode_switch g w) := shown_mode_eq _ _ hst
  refine ⟨w', h, ?_⟩
  intro i hi
  have hw := last_write_led w.trace _ i hlt hi
  rw [← htr] at hw
  change led_active w' i = true ↔ i = shown_mode w'
  rw [hshown]
  simp only [led_active, mode_led_pin i hi, hw]
  split_ifs with heq <;> simp [heq]

/-- C13 while selecting mode 5 from mode 2, with a RIGHT gesture (wraps to 0). -/
theorem selecting_indicator_refreshed_witness :
    ∃ w', handle DIR_RIGHT ⟨2, 5, false, true, none, []⟩ = some w' ∧
      indicator_shows w' (if w'.is_mode_selection then w'.selected_mode else w'.current_mode) :=
  selecting_indicator_refreshed ⟨2, 5, false, true, none, []⟩ DIR_RIGHT rfl
    (by decide) (by decide)

/-! ## Every handled gesture: calls made, range of the modes, success -/

theorem handle_gesture_eq_handle (v : World) (g : Int) (h : v.apds = some g) :
    handle_gesture v = handle g v := by
  obtain ⟨cm, sm, ir, ims, ap, tr⟩ := v
  simp only at h
  subst h
  rfl

theorem handle_gesture_none (v : World) (h : v.apds = none) :
    handle_gesture v = some (emit Effect.isGestureAvailable v) := by
  obtain ⟨cm, sm, ir, ims, ap, tr⟩ := v
  simp only at h
  subst h
  rfl

theorem isHid_not_sensor_gate (e : Effect) (h : e.isHid = true) :
    e.isSensor = false ∧ e.isGate = false := by
  cases e <;> simp_all [Effect.isHid, Effect.isSensor, Effect.isGate]

theorem led_writes_not_sensor_gate (pin : Nat) (e : Effect) (h : e ∈ led_writes pin) :
    e.isSensor = false ∧ e.isGate = false := by
  simp only [led_writes, List.mem_append, List.mem_map, List.mem_singleton] at h
  rcases h with ⟨i, -, rfl⟩ | rfl <;> exact ⟨rfl, rfl⟩

/-- Every handled gesture leaves `is_adsp_isr` alone and makes the two sensor
calls followed by calls that are neither sensor calls nor interrupt
attach/detach calls. -/
theorem handle_spec (w w' : World) (g : Int) (h : handle g w = some w') :
    w'.is_adsp_isr = w.is_adsp_isr ∧
      ∃ rest, w'.trace = w.trace ++ (Effect.isGestureAvailable :: Effect.readGesture :: rest) ∧
        ∀ e ∈ rest, e.isSensor = false ∧ e.isGate = false := by
  cases hs : w.is_mode_selection with
  | true =>
    obtain ⟨-, -, hir, htr⟩ := handle_selecting_spec w w' g hs h
    exact ⟨hir, _, htr, led_writes_not_sensor_gate _⟩
  | false =>
    by_cases hg : g = DIR_FAR
    · subst hg
      rw [handle_normal_far w hs, Option.some.injEq] at h
      subst h
      exact ⟨rfl, [], rfl, by simp⟩
    · obtain ⟨-, hir, calls, htr, -, hhid⟩ := handle_normal_spec w w' g hs hg h
      refine ⟨hir, calls, htr, fun e he => ?_⟩
      have hall := List.filter_eq_self.mp hhid
      exact isHid_not_sensor_gate e (hall e he)

/-- The calls of `handle_gesture`: at most one gesture read, no interrupt
attach/detach, `is_adsp_isr` untouched. -/
theorem handle_gesture_spec (v w1 : World) (h : handle_gesture v = some w1) :
    w1.is_adsp_isr = v.is_adsp_isr ∧
      ∃ mid, w1.trace = v.trace ++ mid ∧ mid.count Effect.readGesture ≤ 1 ∧
        ∀ e ∈ mid, e.isGate = false := by
  cases hap : v.apds with
  | none =>
    rw [handle_gesture_none v hap, Option.some.injEq] at h
    subst h
    exact ⟨rfl, [Effect.isGestureAvailable], rfl, by decide, by simp [Effect.isGate]⟩
  | some g =>
    rw [handle_gesture_eq_handle v g hap] at h
    obtain ⟨hir, rest, htr, hrest⟩ := handle_spec v w1 g h
    refine ⟨hir, _, htr, ?_, ?_⟩
    · have hnot : Effect.readGesture ∉ rest := fun hmem => by
        have := (hrest _ hmem).1
        simp [Effect.isSensor] at this
      have hz : rest.count Effect.readGesture = 0 := List.count_eq_zero.mpr hnot
      simp [List.count_cons, hz]
    · intro e he
      simp only [List.mem_cons] at he
      rcases he with rfl | rfl | he
      · rfl
      · rfl
      · exact (hrest e he).2

/-- A handled gesture keeps both modes in range. -/
theorem handle_range (w w' : World) (g : Int) (hc : w.current_mode < MODE_N)
    (hsel : w.selected_mode < MODE_N) (h : handle g w = some w') :
    w'.current_mode < MODE_N ∧ w'.selected_mode < MODE_N := by
  cases hs : w.is_mode_selection with
  | true =>
    obtain ⟨-, hst, -, -⟩ := handle_selecting_spec w w' g hs h
    simp only [mode_state, Prod.mk.injEq] at hst
    rw [hst.1, hst.2.1]
    simp only [ MODE_N] at hc hsel ⊢
    simp only [mode_switch, MODE_N]
    split_ifs <;> constructor <;> dsimp only <;> omega
  | false =>
    by_cases hg : g = DIR_FAR
    · subst hg
      rw [handle_normal_far w hs, Option.some.injEq] at h
      subst h
      exact ⟨hc, hc⟩
    · obtain ⟨hst, -⟩ := handle_normal_spec w w' g hs hg h
      simp only [mode_state, Prod.mk.injEq] at hst
      rw [hst.1, hst.2.1]
      exact ⟨hc, hsel⟩

/-- With both modes in range, a gesture is handled unless it is dispatched in
NORMAL to a column outside the table row. -/
theorem handle_some_of_in_range (w : World) (g : Int) (hc : w.current_mode < MODE_N)
    (hsel : w.selected_mode < MODE_N)
    (hg : w.is_mode_selection = true ∨ g = DIR_FAR ∨ map_apds_gesture g < ACTION_PER_MODE_N) :
    ∃ w', handle g w = some w' := by
  cases hs : w.is_mode_selection with
  | true =>
    obtain ⟨w', h, -⟩ := handle_selecting_some w g hs (shown_mode_switch_lt w g hc hsel hs)
    exact ⟨w', h⟩
  | false =>
    by_cases hfar : g = DIR_FAR
    · subst hfar
      exact ⟨_, handle_normal_far w hs⟩
    · have hcol : map_apds_gesture g < ACTION_PER_MODE_N := by
        rcases hg with h | h | h
        · rw [hs] at h; cases h
        · exact absurd h hfar
        · exact h
      obtain ⟨a, ha⟩ := Option.isSome_iff_exists.mp
        ((actions_at_isSome w.current_mode (map_apds_gesture g)).mpr ⟨hc, hcol⟩)
      cases he : a.enabled with
      | false => exact ⟨_, handle_normal_disabled w g a hs hfar ha he⟩
      | true =>
        obtain ⟨k, hk⟩ := actions_enabled_main_press _ _ a ha he
        exact ⟨_, handle_normal_dispatch w g a k hs hfar ha he hk⟩

theorem handle_all_range (seq : List Int) (w w' : World) (hc : w.current_mode < MODE_N)
    (hsel : w.selected_mode < MODE_N) (h : handle_all seq w = some w') :
    w'.current_mode < MODE_N ∧ w'.selected_mode < MODE_N := by
  induction seq generalizing w with
  | nil =>
    simp only [handle_all, Option.some.injEq] at h
    subst h
    exact ⟨hc, hsel⟩
  | cons g gs ih =>
    simp only [handle_all] at h
    cases h1 : handle g w with
    | none => simp [h1] at h
    | some w1 =>
      simp only [h1] at h
      obtain ⟨hc1, hsel1⟩ := handle_range w w1 g hc hsel h1
      exact ih w1 hc1 hsel1 h

/-- The recognized codes and `DIR_NONE` are mapped to a column of the table. -/
theorem recognized_column (g : Int) (hg : g ∈ recognized ∨ g = DIR_NONE) :
    map_apds_gesture g < ACTION_PER_MODE_N := by
  simp only [recognized, DIR_LEFT, DIR_RIGHT, DIR_UP, DIR_DOWN, DIR_NEAR, DIR_FAR, DIR_NONE,
    List.mem_cons, List.mem_singleton, List.not_mem_nil, or_false] at hg
  rcases hg with (h | h | h | h | h | h) | h <;> subst h <;> decide

theorem handle_all_some_of_recognized (seq : List Int) (w : World) (hc : w.current_mode < MODE_N)
    (hsel : w.selected_mode < MODE_N) (hseq : ∀ g ∈ seq, g ∈ recognized ∨ g = DIR_NONE) :
    ∃ w', handle_all seq w = some w' := by
  induction seq generalizing w with
  | nil => exact ⟨w, rfl⟩
  | cons g gs ih =>
    obtain ⟨w1, h1⟩ := handle_some_of_in_range w g hc hsel
      (Or.inr (Or.inr (recognized_column g (hseq g (List.mem_cons_self _ _)))))
    obtain ⟨hc1, hsel1⟩ := handle_range w w1 g hc hsel h1
    obtain ⟨w', h'⟩ := ih w1 hc1 hsel1 (fun x hx => hseq x (List.mem_cons_of_mem _ hx))
    exact ⟨w', by simp [handle_all, h1, h']⟩

/-! ## The event gate and the mode range invariant (claims C16, C17) -/

theorem blink_apds_led_trace (w : World) :
    blink_apds_led w = { w with trace := w.trace ++ blink_calls } := by
  obtain ⟨cm, sm, ir, ims, ap, tr⟩ := w
  simp [blink_apds_led, List.range, List.range.loop, emit, blink_calls]

theorem finish_pass_spec (w : World) :
    (finish_pass w).trace = w.trace ++ blink_calls ++ [Effect.attachInterrupt APDS_INT_PIN] ∧
    (finish_pass w).is_adsp_isr = false ∧ mode_state (finish_pass w) = mode_state w := by
  simp [finish_pass, blink_apds_led_trace, emit, mode_state]

/-- C16: event gate ordering.  For a loop pass that runs with the transport
connected and `is_adsp_isr` set: whenever the pass completes, the worlds after
its five statements show, in this order, the detach of the interrupt, the
gesture handling, the status blink (with `is_adsp_isr` still set), the clear
of `is_adsp_isr` (no call made), and only then the re-attach.  The calls of
the pass are the detach, the calls `mid` of `handle_gesture` (at most one
gesture read), the blink, the re-attach; no attach or detach lies in between
and the blink holds no sensor and no HID call (so every sensor read and HID
call is inside the detached window); `is_adsp_isr` is false at the end.  The
pass does complete when both modes are in range and the buffered gesture, if
any, is not dispatched to a column outside the table.  A pass with
`is_adsp_isr` clear changes nothing and makes no call. -/
theorem event_gate_ordering (w : World) :
    (w.is_adsp_isr = true →
      (∀ w', loop true w = some w' →
        (∃ w1 w2 w3 w4, exec_stmts pass_body w = some [w1, w2, w3, w4, w'] ∧
          w1 = emit (Effect.detachInterrupt APDS_INT_PIN) w ∧
          handle_gesture w1 = some w2 ∧
          w3.trace = w2.trace ++ blink_calls ∧ w3.is_adsp_isr = true ∧
          w4.trace = w3.trace ∧ w4.is_adsp_isr = false ∧
          w'.trace = w4.trace ++ [Effect.attachInterrupt APDS_INT_PIN] ∧
          w'.is_adsp_isr = false) ∧
        ∃ mid, effects_since w w' =
            [Effect.detachInterrupt APDS_INT_PIN] ++ mid ++ blink_calls ++
              [Effect.attachInterrupt APDS_INT_PIN] ∧
          mid.count Effect.readGesture ≤ 1 ∧
          (∀ e ∈ mid ++ blink_calls, e.isGate = false) ∧
          (∀ e ∈ blink_calls, e.isSensor = false ∧ e.isHid = false) ∧
          w'.is_adsp_isr = false) ∧
      (w.current_mode < MODE_N → w.selected_mode < MODE_N →
        (∀ g, w.apds = some g →
          w.is_mode_selection = true ∨ g = DIR_FAR ∨ map_apds_gesture g < ACTION_PER_MODE_N) →
        ∃ w', loop true w = some w')) ∧
    (w.is_adsp_isr = false → ∀ c, loop c w = some w) := by
  refine ⟨fun hp => ⟨?_, ?_⟩, ?_⟩
  · intro w' h
    rw [loop_connected_pending w hp] at h
    cases h1 : handle_gesture (emit (Effect.detachInterrupt APDS_INT_PIN) w) with
    | none => simp [h1] at h
    | some w1 =>
      simp only [h1, Option.map_some', Option.some.injEq] at h
      obtain ⟨hir, mid, htr, hcount, hgate⟩ := handle_gesture_spec _ w1 h1
      obtain ⟨hftr, hfir, -⟩ := finish_pass_spec w1
      subst h
      refine ⟨⟨_, w1, blink_apds_led w1, { blink_apds_led w1 with is_adsp_isr := false },
        by rw [exec_stmts_pass_body, h1]; rfl, rfl, h1, ?_, ?_, rfl, rfl, ?_, hfir⟩,
        mid, ?_, hcount, ?_, by decide, hfir⟩
      · rw [blink_apds_led_trace]
      · rw [blink_apds_led_trace]
        simpa [emit] using hir.trans hp
      · simp [finish_pass, emit]
      · apply effects_since_append
        rw [hftr, htr]
        simp [emit]
      · intro e he
        rcases List.mem_append.mp he with hm | hb
        · exact hgate e hm
        · have hblink : ∀ x ∈ blink_calls, x.isGate = false := by decide
          exact hblink e hb
  · intro hc hsel hg
    rw [loop_connected_pending w hp]
    cases hap : w.apds with
    | none =>
      rw [handle_gesture_none _ (by simpa [emit] using hap)]
      exact ⟨_, rfl⟩
    | some g =>
      rw [handle_gesture_eq_handle _ g (by simpa [emit] using hap)]
      obtain ⟨w1, h1⟩ := handle_some_of_in_range
        (emit (Effect.detachInterrupt APDS_INT_PIN) w) g hc hsel (hg g hap)
      exact ⟨_, by rw [h1]; rfl⟩
  · intro hp c
    cases c <;> simp [loop, hp]

/-- C16 for a pending LEFT gesture in the initial state, where the pass ends
in the world written out below, and for the initial state without a pending
interrupt. -/
theorem event_gate_ordering_witness :
    ((∃ w1 w2 w3 w4, exec_stmts pass_body (isr (sense DIR_LEFT World.init)) =
          some [w1, w2, w3, w4, ⟨0, 0, false, false, none,
            [Effect.detachInterrupt 10, Effect.isGestureAvailable, Effect.readGesture,
             Effect.releaseAll, Effect.press 0, Effect.press 0, Effect.press 0,
             Effect.pressMedia MediaKey.KEY_MEDIA_PLAY_PAUSE, Effect.releaseAll,
             Effect.digitalWrite 9 0, Effect.delay 250, Effect.digitalWrite 9 1,
             Effect.delay 250, Effect.digitalWrite 9 0, Effect.delay 250,
             Effect.attachInterrupt 10]⟩] ∧
        w1 = emit (Effect.detachInterrupt APDS_INT_PIN) (isr (sense DIR_LEFT World.init)) ∧
        handle_gesture w1 = some w2 ∧
        w3.trace = w2.trace ++ blink_calls ∧ w3.is_adsp_isr = true ∧
        w4.trace = w3.trace ∧ w4.is_adsp_isr = false ∧
        (⟨0, 0, false, false, none,
            [Effect.detachInterrupt 10, Effect.isGestureAvailable, Effect.readGesture,
             Effect.releaseAll, Effect.press 0, Effect.press 0, Effect.press 0,
             Effect.pressMedia MediaKey.KEY_MEDIA_PLAY_PAUSE, Effect.releaseAll,
             Effect.digitalWrite 9 0, Effect.delay 250, Effect.digitalWrite 9 1,
             Effect.delay 250, Effect.digitalWrite 9 0, Effect.delay 250,
             Effect.attachInterrupt 10]⟩ : World).trace =
          w4.trace ++ [Effect.attachInterrupt APDS_INT_PIN] ∧
        (⟨0, 0, false, false, none,
            [Effect.detachInterrupt 10, Effect.isGestureAvailable, Effect.readGesture,
             Effect.releaseAll, Effect.press 0, Effect.press 0, Effect.press 0,
             Effect.pressMedia MediaKey.KEY_MEDIA_PLAY_PAUSE, Effect.releaseAll,
             Effect.digitalWrite 9 0, Effect.delay 250, Effect.digitalWrite 9 1,
             Effect.delay 250, Effect.digitalWrite 9 0, Effect.delay 250,
             Effect.attachInterrupt 10]⟩ : World).is_adsp_isr = false) ∧
      ∃ mid, effects_since (isr (sense DIR_LEFT World.init))
          ⟨0, 0, false, false, none,
            [Effect.detachInterrupt 10, Effect.isGestureAvailable, Effect.readGesture,
             Effect.releaseAll, Effect.press 0, Effect.press 0, Effect.press 0,
             Effect.pressMedia MediaKey.KEY_MEDIA_PLAY_PAUSE, Effect.releaseAll,
             Effect.digitalWrite 9 0, Effect.delay 250, Effect.digitalWrite 9 1,
             Effect.delay 250, Effect.digitalWrite 9 0, Effect.delay 250,
             Effect.attachInterrupt 10]⟩ =
          [Effect.detachInterrupt APDS_INT_PIN] ++ mid ++ blink_calls ++
            [Effect.attachInterrupt APDS_INT_PIN] ∧
        mid.count Effect.readGesture ≤ 1 ∧
        (∀ e ∈ mid ++ blink_calls, e.isGate = false) ∧
        (∀ e ∈ blink_calls, e.isSensor = false ∧ e.isHid = false) ∧
        (⟨0, 0, false, false, none,
            [Effect.detachInterrupt 10, Effect.isGestureAvailable, Effect.readGesture,
             Effect.releaseAll, Effect.press 0, Effect.press 0, Effect.press 0,
             Effect.pressMedia MediaKey.KEY_MEDIA_PLAY_PAUSE, Effect.releaseAll,
             Effect.digitalWrite 9 0, Effect.delay 250, Effect.digitalWrite 9 1,
             Effect.delay 250, Effect.digitalWrite 9 0, Effect.delay 250,
             Effect.attachInterrupt 10]⟩ : World).is_adsp_isr = false) ∧
    (∃ w', loop true (isr (sense DIR_LEFT World.init)) = some w') ∧
    (∀ c, loop c World.init = some World.init) :=
  ⟨((event_gate_ordering (isr (sense DIR_LEFT World.init))).1 rfl).1 _ (by decide),
   ((event_gate_ordering (isr (sense DIR_LEFT World.init))).1 rfl).2 (by decide) (by decide)
      (by intro g hg; cases hg; decide),
   (event_gate_ordering World.init).2 rfl⟩

/-- C17: mode range invariant.  In every state reached from the initial state
by handling any sequence of gesture codes, `currentMode < MODE_N` and
`selectedMode < MODE_N`, so the row read `actions[current_mode]` and the pin
read `MODE_LED_PINS[mode]` of the shown mode are inside their arrays; and
every sequence of recognized codes (or `DIR_NONE`) is handled to the end. -/
theorem mode_range_invariant (seq : List Int) :
    (∀ w, handle_all seq World.init = some w →
      w.current_mode < MODE_N ∧ w.selected_mode < MODE_N ∧
      (actions[w.current_mode]?).isSome = true ∧
      (MODE_LED_PINS[shown_mode w]?).isSome = true) ∧
    ((∀ g ∈ seq, g ∈ recognized ∨ g = DIR_NONE) → ∃ w, handle_all seq World.init = some w) := by
  refine ⟨fun w h => ?_, fun hseq =>
    handle_all_some_of_recognized seq World.init (by decide) (by decide) hseq⟩
  obtain ⟨hc, hsel⟩ := handle_all_range seq World.init w (by decide) (by decide) h
  have hshown : shown_mode w < MODE_N := by
    simp only [shown_mode]; split_ifs <;> assumption
  refine ⟨hc, hsel, ?_, ?_⟩
  · have hlen : actions.length = MODE_N := by rw [actions_rows]; rfl
    rw [List.getElem?_eq_getElem (by rw [hlen]; exact hc)]; rfl
  · rw [mode_led_pin _ hshown]; rfl

/-- C17 for the gestures FAR, LEFT: they end in SELECTING with
`selectedMode = 5`, in the world written out below. -/
theorem mode_range_invariant_witness :
    ((⟨0, 5, false, true, none,
        [Effect.isGestureAvailable, Effect.readGesture, Effect.isGestureAvailable,
         Effect.readGesture, Effect.digitalWrite 1 0, Effect.digitalWrite 2 0,
         Effect.digitalWrite 3 0, Effect.digitalWrite 4 0, Effect.digitalWrite 5 0,
         Effect.digitalWrite 6 0, Effect.digitalWrite 6 1]⟩ : World).current_mode < MODE_N ∧
      (⟨0, 5, false, true, none,
        [Effect.isGestureAvailable, Effect.readGesture, Effect.isGestureAvailable,
         Effect.readGesture, Effect.digitalWrite 1 0, Effect.digitalWrite 2 0,
         Effect.digitalWrite 3 0, Effect.digitalWrite 4 0, Effect.digitalWrite 5 0,
         Effect.digitalWrite 6 0, Effect.digitalWrite 6 1]⟩ : World).selected_mode < MODE_N ∧
      (actions[(⟨0, 5, false, true, none,
        [Effect.isGestureAvailable, Effect.readGesture, Effect.isGestureAvailable,
         Effect.readGesture, Effect.digitalWrite 1 0, Effect.digitalWrite 2 0,
         Effect.digitalWrite 3 0, Effect.digitalWrite 4 0, Effect.digitalWrite 5 0,
         Effect.digitalWrite 6 0, Effect.digitalWrite 6 1]⟩ : World).current_mode]?).isSome
          = true ∧
      (MODE_LED_PINS[shown_mode ⟨0, 5, false, true, none,
        [Effect.isGestureAvailable, Effect.readGesture, Effect.isGestureAvailable,
         Effect.readGesture, Effect.digitalWrite 1 0, Effect.digitalWrite 2 0,
         Effect.digitalWrite 3 0, Effect.digitalWrite 4 0, Effect.digitalWrite 5 0,
         Effect.digitalWrite 6 0, Effect.digitalWrite 6 1]⟩]?).isSome = true) ∧
    ∃ w, handle_all [DIR_FAR, DIR_LEFT] World.init = some w :=
  ⟨(mode_range_invariant [DIR_FAR, DIR_LEFT]).1 _ (by decide),
   (mode_range_invariant [DIR_FAR, DIR_LEFT]).2 (by decide)⟩

end GestureControl
